import Mathlib

/-!
Verification development for the execution-engine specification of this
repository (an ethereumjs-based client).  The repository snapshot ships the
`Block` class (`packages/block/src/block.ts`) together with benchmarks and
tests that drive the bytecode execution engine (`EVM`), whose interpreter
sources are consumed from the `@ethereumjs/evm` package.  Components whose
implementation files are not part of the snapshot are modelled from the
specification text and are marked `Modelled from the spec:` in their doc
comments; everything in the `Block` section is translated directly from
`packages/block/src/block.ts`.
-/

namespace EvmModel

/-- The word size modulus: EVM words are 256-bit unsigned integers. -/
def TWO_POW256 : Nat := 2 ^ 256

/-- Modelled from the spec: "signed variants reinterpret two's-complement".
Reinterpret an unsigned 256-bit word as a signed integer. -/
def toSigned (x : Nat) : Int :=
  if x < 2 ^ 255 then (x : Int) else (x : Int) - (TWO_POW256 : Int)

/-- Modelled from the spec: store a (possibly negative) integer result back
into an unsigned 256-bit word, i.e. reduce it modulo `2^256` into `[0, 2^256)`.
`Int.emod` already yields the least non-negative residue. -/
def toWord (i : Int) : Nat := (i % (TWO_POW256 : Int)).toNat

/-- Modelled from the spec: the binary arithmetic instruction family
("Arithmetic/bitwise/comparison: operate on 256-bit unsigned words with
wraparound (modulo 2^256); signed variants reinterpret two's-complement"). -/
inductive ArithOp
  | ADD | MUL | SUB | DIV | SDIV | MOD | SMOD | EXP
deriving DecidableEq, Repr

/-- Modelled from the spec: the value an arithmetic instruction pushes onto
the operand stack, computed the way the interpreter computes it: unsigned
ops wrap modulo `2^256`, division by zero yields `0`, signed ops reinterpret
their operands as two's-complement, compute on integers (truncated division,
as in the EVM), and store the result back as an unsigned word. -/
def execArith (op : ArithOp) (a b : Nat) : Nat :=
  match op with
  | .ADD => (a + b) % TWO_POW256
  | .MUL => (a * b) % TWO_POW256
  | .SUB => toWord ((a : Int) - (b : Int))
  | .DIV => if b = 0 then 0 else a / b
  | .SDIV => if b = 0 then 0 else toWord (Int.tdiv (toSigned a) (toSigned b))
  | .MOD => if b = 0 then 0 else a % b
  | .SMOD => if b = 0 then 0 else toWord (Int.tmod (toSigned a) (toSigned b))
  | .EXP => (a ^ b) % TWO_POW256

/-- The exact mathematical result of an arithmetic instruction on
arbitrary-precision integers (the reference the spec's property test
compares against).  Signed variants first reinterpret the operands as
two's-complement integers; EVM division truncates toward zero and the
conventional value of a zero divisor is `0`. -/
def mathArith (op : ArithOp) (a b : Nat) : Int :=
  match op with
  | .ADD => (a : Int) + b
  | .MUL => (a : Int) * b
  | .SUB => (a : Int) - b
  | .DIV => if b = 0 then 0 else (a / b : Nat)
  | .SDIV => if b = 0 then 0 else Int.tdiv (toSigned a) (toSigned b)
  | .MOD => if b = 0 then 0 else (a % b : Nat)
  | .SMOD => if b = 0 then 0 else Int.tmod (toSigned a) (toSigned b)
  | .EXP => ((a ^ b : Nat) : Int)

/-- Modelled from the spec: the tagged failure kinds of §7; "every abort
carries one `FailureKind`". -/
inductive FailureKind
  | OutOfGas
  | StackUnderflow
  | StackOverflow
  | InvalidInstruction
  | InvalidJumpTarget
  | StaticStateChangeError
  | InsufficientBalance
  | CreateCollision
  | CodeSizeExceeded
  | RevertedByContract
  | CallDepthExceeded
deriving DecidableEq, Repr

/-- The jump-destination marker byte (`JUMPDEST`, `0x5b`). -/
def JUMPDEST_BYTE : Nat := 0x5b

/-- Whether a code byte is a PUSH opcode (`0x60`–`0x7f`), which embeds
1 to 32 data bytes after it. -/
def isPushOp (b : Nat) : Bool := decide (0x60 ≤ b) && decide (b ≤ 0x7f)

/-- Number of embedded data bytes of a PUSH opcode byte. -/
def pushDataLen (b : Nat) : Nat := b - 0x5f

/-- Modelled from the spec: valid jump destinations are "computed once per
contract code blob by scanning for destination markers while skipping over
embedded push-data bytes".  The scan walks the code byte by byte carrying
`skip`, the number of push-data bytes still to be skipped, and `i`, the
offset of the current byte. -/
def jumpDestsAux : List Nat → Nat → Nat → List Nat
  | [], _, _ => []
  | b :: rest, skip, i =>
    if 0 < skip then jumpDestsAux rest (skip - 1) (i + 1)
    else if b = JUMPDEST_BYTE then i :: jumpDestsAux rest 0 (i + 1)
    else if isPushOp b then jumpDestsAux rest (pushDataLen b) (i + 1)
    else jumpDestsAux rest 0 (i + 1)

/-- The valid jump destinations of a code blob. -/
def validJumpDests (code : List Nat) : List Nat := jumpDestsAux code 0 0

/-- The true instruction boundaries of a code blob: the offsets at which an
instruction starts when the code is decoded sequentially from offset 0, a
PUSH instruction occupying one opcode byte plus its embedded data bytes.
Offsets not in this list lie inside the push-data of a PUSH instruction. -/
def instrBoundsAux : List Nat → Nat → Nat → List Nat
  | [], _, _ => []
  | b :: rest, skip, i =>
    if 0 < skip then instrBoundsAux rest (skip - 1) (i + 1)
    else if isPushOp b then i :: instrBoundsAux rest (pushDataLen b) (i + 1)
    else i :: instrBoundsAux rest 0 (i + 1)

/-- The instruction boundaries of a code blob. -/
def instrBounds (code : List Nat) : List Nat := instrBoundsAux code 0 0

/-- Modelled from the spec: the recognized instruction subset of the
interpreter model (§4.1 families: arithmetic, stack, memory, storage,
control flow, halts). -/
inductive Instr
  | STOP
  | ADD
  | MUL
  | SUB
  | DIV
  | POP
  | DUP1
  | PUSH (n : Nat) (v : Nat)
  | MSTORE8
  | SLOAD
  | SSTORE
  | JUMP
  | JUMPI
  | JUMPDEST
  | RETURN
  | REVERT
deriving DecidableEq, Repr

/-- Big-endian byte concatenation into a word. -/
def bytesToNat (l : List Nat) : Nat := l.foldl (fun acc b => acc * 256 + b) 0

/-- Modelled from the spec: "read the opcode byte at the program counter; if
it is not a recognized instruction, fail with `InvalidInstruction`";
"reaching the end of code behaves as STOP".  A PUSH immediate is read from
the bytes following the opcode (truncated at the end of code). -/
def decode (code : List Nat) (pc : Nat) : Option Instr :=
  match code[pc]? with
  | none => some .STOP
  | some b =>
    if b = 0x00 then some .STOP
    else if b = 0x01 then some .ADD
    else if b = 0x02 then some .MUL
    else if b = 0x03 then some .SUB
    else if b = 0x04 then some .DIV
    else if b = 0x50 then some .POP
    else if b = 0x53 then some .MSTORE8
    else if b = 0x54 then some .SLOAD
    else if b = 0x55 then some .SSTORE
    else if b = 0x56 then some .JUMP
    else if b = 0x57 then some .JUMPI
    else if b = JUMPDEST_BYTE then some .JUMPDEST
    else if isPushOp b then
      some (.PUSH (pushDataLen b) (bytesToNat ((code.drop (pc + 1)).take (pushDataLen b))))
    else if b = 0x80 then some .DUP1
    else if b = 0xf3 then some .RETURN
    else if b = 0xfd then some .REVERT
    else none

/-- Operand-stack items popped by an instruction. -/
def delta : Instr → Nat
  | .STOP => 0
  | .ADD => 2
  | .MUL => 2
  | .SUB => 2
  | .DIV => 2
  | .POP => 1
  | .DUP1 => 1
  | .PUSH _ _ => 0
  | .MSTORE8 => 2
  | .SLOAD => 1
  | .SSTORE => 2
  | .JUMP => 1
  | .JUMPI => 2
  | .JUMPDEST => 0
  | .RETURN => 2
  | .REVERT => 2

/-- Operand-stack items pushed by an instruction. -/
def alpha : Instr → Nat
  | .STOP => 0
  | .ADD => 1
  | .MUL => 1
  | .SUB => 1
  | .DIV => 1
  | .POP => 0
  | .DUP1 => 2
  | .PUSH _ _ => 1
  | .MSTORE8 => 0
  | .SLOAD => 1
  | .SSTORE => 0
  | .JUMP => 0
  | .JUMPI => 0
  | .JUMPDEST => 0
  | .RETURN => 0
  | .REVERT => 0

/-- Modelled from the spec: static per-instruction costs "from a table keyed
by (opcode, active protocol revision)", here at a fixed revision.  Every
non-halting instruction costs at least one unit of gas, so an execution can
take at most `gas` steps before halting or running out of gas. -/
def cost : Instr → Nat
  | .STOP => 0
  | .ADD => 3
  | .MUL => 5
  | .SUB => 3
  | .DIV => 5
  | .POP => 2
  | .DUP1 => 3
  | .PUSH _ _ => 3
  | .MSTORE8 => 3
  | .SLOAD => 100
  | .SSTORE => 100
  | .JUMP => 8
  | .JUMPI => 10
  | .JUMPDEST => 1
  | .RETURN => 0
  | .REVERT => 0

/-- The gas-independent part of an Execution Frame: program counter, operand
stack, linear memory (sparse byte map) and contract storage view. -/
structure Core where
  pc : Nat
  stack : List Nat
  mem : List (Nat × Nat)
  store : List (Nat × Nat)
deriving DecidableEq, Repr

/-- Association-list read with default `0` (EVM storage and memory read as
zero when never written). -/
def assocGet (l : List (Nat × Nat)) (k : Nat) : Nat :=
  match l with
  | [] => 0
  | (k', v) :: rest => if k' = k then v else assocGet rest k

/-- Read `n` consecutive bytes of memory starting at `off`. -/
def readBytes (mem : List (Nat × Nat)) : Nat → Nat → List Nat
  | _, 0 => []
  | off, n + 1 => assocGet mem off :: readBytes mem (off + 1) n

/-- Effect of one instruction on the gas-independent frame state. -/
inductive Eff
  | cont (c : Core)
  | halt (ok : Bool) (ret : List Nat) (c : Core)
  | fail (k : FailureKind)
deriving DecidableEq, Repr

/-- Modelled from the spec: the state effect of each instruction (§4.1
instruction families), applied after the stack and gas preconditions have
been validated.  The final catch-all arm is unreachable once the underflow
check has passed. -/
def exec (code : List Nat) (i : Instr) (c : Core) : Eff :=
  match i, c.stack with
  | .STOP, _ => .halt true [] c
  | .ADD, a :: b :: rest => .cont { c with pc := c.pc + 1, stack := (a + b) % TWO_POW256 :: rest }
  | .MUL, a :: b :: rest => .cont { c with pc := c.pc + 1, stack := (a * b) % TWO_POW256 :: rest }
  | .SUB, a :: b :: rest =>
    .cont { c with pc := c.pc + 1, stack := toWord ((a : Int) - (b : Int)) :: rest }
  | .DIV, a :: b :: rest =>
    .cont { c with pc := c.pc + 1, stack := (if b = 0 then 0 else a / b) :: rest }
  | .POP, _ :: rest => .cont { c with pc := c.pc + 1, stack := rest }
  | .DUP1, a :: rest => .cont { c with pc := c.pc + 1, stack := a :: a :: rest }
  | .PUSH n v, st => .cont { c with pc := c.pc + 1 + n, stack := v :: st }
  | .MSTORE8, off :: v :: rest =>
    .cont { c with pc := c.pc + 1, stack := rest, mem := (off, v % 256) :: c.mem }
  | .SLOAD, k :: rest => .cont { c with pc := c.pc + 1, stack := assocGet c.store k :: rest }
  | .SSTORE, k :: v :: rest => .cont { c with pc := c.pc + 1, stack := rest, store := (k, v) :: c.store }
  | .JUMP, t :: rest =>
    if t ∈ validJumpDests code then .cont { c with pc := t, stack := rest }
    else .fail .InvalidJumpTarget
  | .JUMPI, t :: cond :: rest =>
    if cond = 0 then .cont { c with pc := c.pc + 1, stack := rest }
    else if t ∈ validJumpDests code then .cont { c with pc := t, stack := rest }
    else .fail .InvalidJumpTarget
  | .JUMPDEST, _ => .cont { c with pc := c.pc + 1 }
  | .RETURN, off :: len :: rest => .halt true (readBytes c.mem off len) { c with stack := rest }
  | .REVERT, off :: len :: rest => .halt false (readBytes c.mem off len) { c with stack := rest }
  | _, _ => .fail .StackUnderflow

/-- Result of one interpreter step, carrying the frame state and remaining
gas at the point the step ended.  A failed step carries the state exactly as
it was when the failing check fired: a stack-validation failure leaves the
frame completely untouched. -/
inductive StepRes
  | cont (c : Core) (gas : Nat)
  | halt (ok : Bool) (ret : List Nat) (c : Core) (gas : Nat)
  | fail (k : FailureKind) (c : Core) (gas : Nat)
deriving DecidableEq, Repr

/-- Modelled from the spec: one iteration of the Interpreter Loop (§4.1):
decode the opcode at the program counter (unknown byte fails with
`InvalidInstruction`), "validate operand-stack preconditions (underflow
check) before touching memory or state", check the push bound of 1024,
deduct the instruction cost (deduction failure is `OutOfGas`), then apply
the instruction's effect. -/
def step (code : List Nat) (c : Core) (gas : Nat) : StepRes :=
  match decode code c.pc with
  | none => .fail .InvalidInstruction c gas
  | some i =>
    if c.stack.length < delta i then .fail .StackUnderflow c gas
    else if 1024 < c.stack.length - delta i + alpha i then .fail .StackOverflow c gas
    else if gas < cost i then .fail .OutOfGas c gas
    else
      match exec code i c with
      | .cont c' => .cont c' (gas - cost i)
      | .halt ok ret c' => .halt ok ret c' (gas - cost i)
      | .fail k => .fail k c (gas - cost i)

/-- Outcome of running a frame to completion. -/
inductive Outcome
  | success (ret : List Nat) (c : Core) (gas : Nat)
  | reverted (ret : List Nat) (c : Core) (gas : Nat)
  | failed (k : FailureKind) (c : Core) (gas : Nat)
deriving DecidableEq, Repr

/-- The interpreter loop: iterate `step` until halt or failure.  `fuel`
bounds the iteration count; since every non-halting instruction costs at
least one unit of gas, fuel `gas + 1` never runs out before the gas does. -/
def runAux (code : List Nat) : Nat → Core → Nat → Outcome
  | 0, c, g => .failed .OutOfGas c g
  | fuel + 1, c, g =>
    match step code c g with
    | .cont c' g' => runAux code fuel c' g'
    | .halt true ret c' g' => .success ret c' g'
    | .halt false ret c' g' => .reverted ret c' g'
    | .fail k c' g' => .failed k c' g'

/-- Modelled from the spec: the top-level Execution Result (§3): success
flag (as an optional failure kind), gas used and return data. -/
structure ExecResult where
  failure : Option FailureKind
  gasUsed : Nat
  returnData : List Nat
deriving DecidableEq, Repr

/-- The initial frame of a `runCode` execution. -/
def initCore (store : List (Nat × Nat)) : Core := ⟨0, [], [], store⟩

/-- Modelled from the spec: `runCode(code, environment) -> ExecutionResult`
(§6), with the §7 accounting convention: "non-revert failures (gas / stack /
jump / depth errors) consume the entire gas limit granted to that frame,
while an explicit REVERT consumes only the gas actually spent up to that
point".  A successful run commits its storage writes; REVERT and the other
failures roll them back. -/
def runCode (code : List Nat) (gasLimit : Nat) (store : List (Nat × Nat)) :
    ExecResult × List (Nat × Nat) :=
  match runAux code (gasLimit + 1) (initCore store) gasLimit with
  | .success ret c g => (⟨none, gasLimit - g, ret⟩, c.store)
  | .reverted ret _ g => (⟨some .RevertedByContract, gasLimit - g, ret⟩, store)
  | .failed k _ _ => (⟨some k, gasLimit, []⟩, store)

/-- The remaining gas recorded in an outcome. -/
def outcomeGas : Outcome → Nat
  | .success _ _ g => g
  | .reverted _ _ g => g
  | .failed _ _ g => g

/-- The gas actually spent by a run of `code` under `gasLimit` (as opposed
to the gas reported as consumed, which is the full limit for non-revert
failures). -/
def spentBy (code : List Nat) (gasLimit : Nat) (store : List (Nat × Nat)) : Nat :=
  gasLimit - outcomeGas (runAux code (gasLimit + 1) (initCore store) gasLimit)

/-- Add `d` to the remaining gas recorded in an outcome (used to relate runs
of the same code under two different gas budgets). -/
def shiftOutcome (d : Nat) : Outcome → Outcome
  | .success ret c g => .success ret c (g + d)
  | .reverted ret c g => .reverted ret c (g + d)
  | .failed k c g => .failed k c (g + d)

/-- One interpreter step as a relation on (frame, gas) pairs. -/
def StepsTo (code : List Nat) (s s' : Core × Nat) : Prop :=
  step code s.1 s.2 = .cont s'.1 s'.2

/-- Reachability in the interpreter loop. -/
def Reached (code : List Nat) : Core × Nat → Core × Nat → Prop :=
  Relation.ReflTransGen (StepsTo code)

/-- A key of the journaled world state: an account balance or a storage
slot of an account. -/
inductive JKey
  | bal (addr : Nat)
  | slot (addr : Nat) (key : Nat)
deriving DecidableEq, Repr

/-- One journal layer: the writes performed since its checkpoint was taken
(newest first, so the head shadows older entries). -/
abbrev JLayer := List (JKey × Nat)

/-- Modelled from the spec: the Journal Bridge (§4.5).  The state
collaborator holds a committed base state plus a stack of provisional
layers, one per open checkpoint; `checkpoint` pushes an empty layer,
`commit` merges the top layer into the one below it (or into the base when
it is the only layer), and `revert` discards the top layer. -/
structure Journal where
  base : List (JKey × Nat)
  layers : List JLayer
deriving DecidableEq, Repr

/-- Association-list read over `JKey` with default `0`. -/
def jassocGet (l : List (JKey × Nat)) (k : JKey) : Nat :=
  match l with
  | [] => 0
  | (k', v) :: rest => if k' = k then v else jassocGet rest k

/-- Whether an association list binds a key. -/
def jassocHas (l : List (JKey × Nat)) (k : JKey) : Bool :=
  match l with
  | [] => false
  | (k', _) :: rest => if k' = k then true else jassocHas rest k

/-- Read a key through the journal: newest open layer first, then the
committed base; unwritten keys read as `0`. -/
def jread (j : Journal) (k : JKey) : Nat :=
  match j.layers.find? (fun l => jassocHas l k) with
  | some l => jassocGet l k
  | none => jassocGet j.base k

/-- Write a key through the journal: the write lands in the newest open
layer (or directly in the committed base when no checkpoint is open). -/
def jwrite (j : Journal) (k : JKey) (v : Nat) : Journal :=
  match j.layers with
  | [] => { j with base := (k, v) :: j.base }
  | l :: ls => { j with layers := ((k, v) :: l) :: ls }

/-- `checkpoint() -> token` (§4.5): open a fresh provisional layer. -/
def jcheckpoint (j : Journal) : Journal :=
  { j with layers := ([] : JLayer) :: j.layers }

/-- `commit(token)` (§4.5): fold the newest layer into its parent, keeping
its writes provisional until the outermost checkpoint commits. -/
def jcommit (j : Journal) : Journal :=
  match j.layers with
  | [] => j
  | [l] => { j with base := l ++ j.base, layers := [] }
  | l :: l' :: ls => { j with layers := (l ++ l') :: ls }

/-- `revert(token)` (§4.5): discard every write recorded since the newest
checkpoint, including writes merged into it by deeper commits. -/
def jrevert (j : Journal) : Journal :=
  match j.layers with
  | [] => j
  | _ :: ls => { j with layers := ls }

/-- Modelled from the spec: the shape of the state-mutating work a callee
performs between checkpoint and commit/revert — a sequence of balance and
storage writes interleaved with nested calls, each nested call opening its
own checkpoint and either committing it (on success) or reverting it. -/
inductive CallBody
  | skip
  | write (k : JKey) (v : Nat)
  | seq (p q : CallBody)
  | nested (body : CallBody) (commits : Bool)

/-- Run a call body against the journal: writes go through the Journal
Bridge and each nested call is bracketed by its own checkpoint / commit /
revert (§4.3 step 5 and step 7). -/
def execBody : CallBody → Journal → Journal
  | .skip, j => j
  | .write k v, j => jwrite j k v
  | .seq p q, j => execBody q (execBody p j)
  | .nested body commits, j =>
    let j' := execBody body (jcheckpoint j)
    if commits then jcommit j' else jrevert j'

/-- How a nested call's frame ended. -/
inductive CallOutcome
  | success
  | revert
  | exception
deriving DecidableEq, Repr

/-- What a call returns to its caller. -/
structure CallRes where
  ok : Bool
  returnData : List Nat
deriving DecidableEq, Repr

/-- Modelled from the spec: the Call Dispatcher's checkpoint discipline
(§4.3 steps 5–7): open a checkpoint, run the callee, then on success commit
the checkpoint; on REVERT or exception roll back to the checkpoint.  REVERT
"ends the frame unsuccessfully but preserves return data for the caller"
while a silent exception discards it (§7). -/
def dispatchNestedCall (body : CallBody) (outcome : CallOutcome) (ret : List Nat)
    (j : Journal) : Journal × CallRes :=
  let j' := execBody body (jcheckpoint j)
  match outcome with
  | .success => (jcommit j', ⟨true, ret⟩)
  | .revert => (jrevert j', ⟨false, ret⟩)
  | .exception => (jrevert j', ⟨false, []⟩)

/-- Fixed-width big-endian byte encoding of a natural number. -/
def natToBytesAux : Nat → Nat → List Nat → List Nat
  | 0, _, acc => acc
  | w + 1, n, acc => natToBytesAux w (n / 256) (n % 256 :: acc)

/-- `len` big-endian bytes of `n` (truncating above `256^len`). -/
def natToBytes (len n : Nat) : List Nat := natToBytesAux len n []

/-- Modelled from the spec: the CREATE address, "a function of (sender
address, sender nonce)" — a 20-byte digest of the encoded pair, computed
with the engine's digest function `hash`. -/
def createAddress (hash : List Nat → Nat) (sender nonce : Nat) : Nat :=
  hash (natToBytes 20 sender ++ natToBytes 32 nonce) % 2 ^ 160

/-- Modelled from the spec: the CREATE2 address, "a function of (sender
address, salt, hash of the initialization code), independent of current
state". -/
def create2Address (hash : List Nat → Nat) (sender salt : Nat) (initCode : List Nat) : Nat :=
  hash (0xff :: natToBytes 20 sender ++ natToBytes 32 salt ++ natToBytes 32 (hash initCode)) %
    2 ^ 160

/-- The world state the Create Dispatcher consults when deriving the new
contract address: the per-account nonces. -/
structure CreateWorld where
  nonces : List (Nat × Nat)
deriving DecidableEq, Repr

/-- Account nonce in a world (0 when the account is absent). -/
def worldNonce (w : CreateWorld) (addr : Nat) : Nat := assocGet w.nonces addr

/-- The two creation kinds of §4.3. -/
inductive CreateKind
  | create
  | create2
deriving DecidableEq, Repr

/-- Modelled from the spec: §4.3 CREATE/CREATE2 — "compute the new contract
address deterministically — either as a function of (sender address, sender
nonce) or, for the salted variant, as a function of (sender address, salt,
hash of the initialization code)". -/
def deriveCreateAddress (hash : List Nat → Nat) (kind : CreateKind) (w : CreateWorld)
    (sender salt : Nat) (initCode : List Nat) : Nat :=
  match kind with
  | .create => createAddress hash sender (worldNonce w sender)
  | .create2 => create2Address hash sender salt initCode

/-- Modelled from the spec: an engine instance — immutable configuration
(shared by clones) plus its own mutable state view (contract storage). -/
structure Engine where
  config : Nat
  store : List (Nat × Nat)
deriving DecidableEq, Repr, Inhabited

/-- `clone()` (§6, realized as `copy()` in the code): a new engine instance
with the same immutable configuration and its own state view. -/
def copyEngine (e : Engine) : Engine := { config := e.config, store := e.store }

/-- A collection of engine instances living side by side (as the benchmark
drivers create them: one `copy()` per sample). -/
structure EnginePool where
  engines : List Engine
deriving DecidableEq, Repr

/-- Append a copy of engine `i` to the pool; the clone gets the next free
index. -/
def poolCopy (p : EnginePool) (i : Nat) : EnginePool :=
  ⟨p.engines ++ [copyEngine (p.engines.getD i default)]⟩

/-- Run bytecode on engine `i` of the pool: only that engine's state view is
read and written. -/
def poolRun (p : EnginePool) (i : Nat) (code : List Nat) (gasLimit : Nat) :
    ExecResult × EnginePool :=
  match p.engines[i]? with
  | none => (⟨none, 0, []⟩, p)
  | some e =>
    let r := runCode code gasLimit e.store
    (r.1, ⟨p.engines.set i { e with store := r.2 }⟩)


/-- The BLS12-381 base field modulus (EIP-2537). -/
def blsP : Nat := 0x1a0111ea397fe69a4b1ba7b6434bacd764774b84f38512bf6730d2a0f6b0f6241eabfffeb153ffffb9feffffffffaaab

/-- The BLS12-381 G1 group order (EIP-2537 subgroup check). -/
def blsR : Nat := 0x73eda753299d7d483339d80809a1d80553bda402fffe5bfeffffffff00000001

/-- A projective point on the BLS12-381 G1 curve `y^2 = x^3 + 4`
(`z = 0` encodes the point at infinity). -/
structure Proj where
  x : Nat
  y : Nat
  z : Nat
deriving DecidableEq, Repr

/-- The projective point at infinity. -/
def projInf : Proj := ⟨0, 1, 0⟩

/-- Base-field addition. -/
def fadd (a b : Nat) : Nat := (a + b) % blsP

/-- Base-field multiplication. -/
def fmul (a b : Nat) : Nat := a * b % blsP

/-- Base-field subtraction (for `b ≤ blsP`). -/
def fsub (a b : Nat) : Nat := (a + (blsP - b)) % blsP

/-- Modelled from the spec: the G1 group operation of the BLS12-G1-MSM
built-in (§4.4; curve semantics per EIP-2537, which the repository's test
vectors are taken from).  Complete projective addition formulas for a
short-Weierstrass curve with `a = 0`, `b = 4` (so `3b = 12`); complete
means the same formulas cover doubling and the point at infinity. -/
def padd (P Q : Proj) : Proj :=
  let xx := fmul P.x Q.x
  let yy := fmul P.y Q.y
  let zz := fmul P.z Q.z
  let xy := fadd (fmul P.x Q.y) (fmul Q.x P.y)
  let xz := fadd (fmul P.x Q.z) (fmul Q.x P.z)
  let yz := fadd (fmul P.y Q.z) (fmul Q.y P.z)
  let bzz3 := fmul 12 zz
  let t1 := fsub yy bzz3
  let t2 := fadd yy bzz3
  ⟨fsub (fmul xy t1) (fmul 12 (fmul yz xz)),
   fadd (fmul t2 t1) (fmul (fmul 36 xx) xz),
   fadd (fmul yz t2) (fmul xy (fmul 3 xx))⟩

/-- Double-and-add scalar multiplication (fueled by the scalar's bit
count; MSM scalars are 32 bytes, so 256 bits suffice). -/
def scalarMulAux : Nat → Nat → Proj → Proj → Proj
  | 0, _, _, acc => acc
  | fuel + 1, k, base, acc =>
    if k = 0 then acc
    else
      scalarMulAux fuel (k / 2) (padd base base)
        (if k % 2 = 1 then padd acc base else acc)

/-- `k · P` on G1 (scalars are not reduced modulo the group order,
as in EIP-2537). -/
def scalarMul (k : Nat) (P : Proj) : Proj := scalarMulAux 256 k P projInf

/-- Square-and-multiply modular exponentiation (fueled by the exponent's
bit count). -/
def powModAux : Nat → Nat → Nat → Nat → Nat
  | 0, _, _, _ => 1
  | fuel + 1, bse, e, m =>
    if e = 0 then 1 % m
    else
      let h := powModAux fuel (bse * bse % m) (e / 2) m
      if e % 2 = 1 then h * bse % m else h

/-- `bse ^ e mod m` (fuel 400 covers the 381-bit exponents used here). -/
def powMod (bse e m : Nat) : Nat := powModAux 400 (bse % m) e m

/-- Encode a projective point as the 128-byte affine encoding of
EIP-2537: two 64-byte big-endian field elements, all zeros for the point
at infinity; the inverse of `z` is computed by Fermat's little theorem. -/
def toAffineBytes (P : Proj) : List Nat :=
  if P.z = 0 then natToBytes 64 0 ++ natToBytes 64 0
  else
    let zinv := powMod P.z (blsP - 2) blsP
    natToBytes 64 (fmul P.x zinv) ++ natToBytes 64 (fmul P.y zinv)

/-- Whether affine `(x, y)` satisfies the curve equation `y^2 = x^3 + 4`. -/
def onCurve (x y : Nat) : Bool := y * y % blsP = (x * x % blsP * x + 4) % blsP

/-- EIP-2537 subgroup check: the point multiplied by the group order is
the point at infinity. -/
def inSubgroup (P : Proj) : Bool := (scalarMul blsR P).z % blsP = 0

/-- Decode a 64-byte field element; values at or above the modulus are
rejected (malformed input). -/
def parseFe (l : List Nat) : Option Nat :=
  let v := bytesToNat l
  if v < blsP then some v else none

/-- Modelled from the spec: "its own input validation; malformed input ...
yields `Failure` without partial output" (§4.4).  Decode `k` (point,
scalar) pairs of 160 bytes each: 64-byte x, 64-byte y, 32-byte scalar;
all-zero coordinates denote the point at infinity, any other point must lie
on the curve and in the G1 subgroup (EIP-2537). -/
def parsePairsAux : Nat → List Nat → Option (List (Proj × Nat))
  | 0, _ => some []
  | k + 1, bytes =>
    match parseFe (bytes.take 64), parseFe ((bytes.drop 64).take 64) with
    | some x, some y =>
      let s := bytesToNat ((bytes.drop 128).take 32)
      if x = 0 ∧ y = 0 then
        match parsePairsAux k (bytes.drop 160) with
        | some rest => some ((projInf, s) :: rest)
        | none => none
      else if onCurve x y && inSubgroup ⟨x, y, 1⟩ then
        match parsePairsAux k (bytes.drop 160) with
        | some rest => some ((⟨x, y, 1⟩, s) :: rest)
        | none => none
      else none
    | _, _ => none

/-- The multi-scalar-multiplication sum of `s_i * P_i` over the pairs. -/
def msmSum : List (Proj × Nat) → Proj
  | [] => projInf
  | (P, s) :: rest => padd (scalarMul s P) (msmSum rest)

/-- A successful precompile invocation: output bytes and gas used (the
shape the repository's precompile tests observe: `returnValue` and
`executionGasUsed`). -/
structure PrecompileOutput where
  returnValue : List Nat
  executionGasUsed : Nat
deriving DecidableEq, Repr

/-- Modelled from the spec: `invoke(address, input, gasLimit) ->
(output, gasUsed) | Failure` (§4.4). -/
inductive PrecompileResult
  | ok (out : PrecompileOutput)
  | fail
deriving DecidableEq, Repr

/-- The EIP-2537 G1-MSM per-batch gas discount (in units of 1/1000);
entries for the batch sizes the repository's test vectors exercise (up to
7 pairs, table listed through 8), larger batches use the table floor. -/
def g1MsmDiscount (k : Nat) : Nat :=
  if k = 1 then 1200 else if k = 2 then 888 else if k = 3 then 764
  else if k = 4 then 641 else if k = 5 then 594 else if k = 6 then 547
  else if k = 7 then 500 else if k = 8 then 453 else 174

/-- Modelled from the spec: the built-in's "own cost function (fixed,
linear, or superlinear in input size or batch count)" — for G1 MSM,
`12000 * k * discount(k) / 1000` for `k` pairs (EIP-2537). -/
def g1MsmGas (k : Nat) : Nat := 12000 * k * g1MsmDiscount k / 1000

/-- Modelled from the spec: the BLS12-G1-MSM built-in at address `0x0d`
(§4.4; semantics per EIP-2537, from which the repository's test vectors
are taken): reject empty input, input whose length is not a multiple of
160, insufficient gas, or any malformed pair — all without partial
output — and otherwise return the 128-byte affine encoding of the
multi-scalar-multiplication sum together with the batch-discounted gas. -/
def BLS12G1MSM (data : List Nat) (gasLimit : Nat) : PrecompileResult :=
  if data.length = 0 then .fail
  else if data.length % 160 ≠ 0 then .fail
  else
    let k := data.length / 160
    let gas := g1MsmGas k
    if gasLimit < gas then .fail
    else
      match parsePairsAux k data with
      | none => .fail
      | some pairs => .ok ⟨toAffineBytes (msmSum pairs), gas⟩

/-- Modelled from the spec: "the active set of addresses and their behavior
is selected by the Environment's protocol-revision flags (some built-ins
activate only from a given revision onward)" (§4.4), restricted to the
built-in the repository's test suite exercises: with EIP-2537 active the
BLS12-G1-MSM built-in lives at address `0x0d`. -/
def getActivePrecompile (eip2537 : Bool) (addr : Nat) :
    Option (List Nat → Nat → PrecompileResult) :=
  if eip2537 ∧ addr = 0x0d then some BLS12G1MSM else none


/-- Test vector 1 input (bls_g1multiexp_(g1+g1=2*g1)), 1 pair(s). -/
def c7in1 : List Nat :=
    natToBytes 64 0x0000000000000000000000000000000017f1d3a73197d7942695638c4fa9ac0fc3688c4f9774b905a14e3a3f171bac586c55e83ff97a1aeffb3af00adb22c6bb ++ natToBytes 64 0x0000000000000000000000000000000008b3f481e3aaa0f1a09e30ed741d8ae4fcf5e095d5d00af600db18cb2c04b3edd03cc744a2888ae40caa232946c5e7e1 ++ natToBytes 32 0x0000000000000000000000000000000000000000000000000000000000000002

/-- Test vector 1 expected output. -/
def c7out1 : List Nat := natToBytes 64 0x000000000000000000000000000000000572cbea904d67468808c8eb50a9450c9721db309128012543902d0ac358a62ae28f75bb8f1c7c42c39a8c5529bf0f4e ++ natToBytes 64 0x00000000000000000000000000000000166a9d8cabc673a322fda673779d8e3822ba3ecb8670e461f73bb9021d5fd76a4c56d9d4cd16bd1bba86881979749d28


/-- Test vector 2 input (bls_g1multiexp_(p1+p1=2*p1)), 1 pair(s). -/
def c7in2 : List Nat :=
    natToBytes 64 0x00000000000000000000000000000000112b98340eee2777cc3c14163dea3ec97977ac3dc5c70da32e6e87578f44912e902ccef9efe28d4a78b8999dfbca9426 ++ natToBytes 64 0x00000000000000000000000000000000186b28d92356c4dfec4b5201ad099dbdede3781f8998ddf929b4cd7756192185ca7b8f4ef7088f813270ac3d48868a21 ++ natToBytes 32 0x0000000000000000000000000000000000000000000000000000000000000002

/-- Test vector 2 expected output. -/
def c7out2 : List Nat := natToBytes 64 0x0000000000000000000000000000000015222cddbabdd764c4bee0b3720322a65ff4712c86fc4b1588d0c209210a0884fa9468e855d261c483091b2bf7de6a63 ++ natToBytes 64 0x0000000000000000000000000000000009f9edb99bc3b75d7489735c98b16ab78b9386c5f7a1f76c7e96ac6eb5bbde30dbca31a74ec6e0f0b12229eecea33c39


/-- Test vector 3 input (bls_g1multiexp_(1*g1=g1)), 1 pair(s). -/
def c7in3 : List Nat :=
    natToBytes 64 0x0000000000000000000000000000000017f1d3a73197d7942695638c4fa9ac0fc3688c4f9774b905a14e3a3f171bac586c55e83ff97a1aeffb3af00adb22c6bb ++ natToBytes 64 0x0000000000000000000000000000000008b3f481e3aaa0f1a09e30ed741d8ae4fcf5e095d5d00af600db18cb2c04b3edd03cc744a2888ae40caa232946c5e7e1 ++ natToBytes 32 0x0000000000000000000000000000000000000000000000000000000000000001

/-- Test vector 3 expected output. -/
def c7out3 : List Nat := natToBytes 64 0x0000000000000000000000000000000017f1d3a73197d7942695638c4fa9ac0fc3688c4f9774b905a14e3a3f171bac586c55e83ff97a1aeffb3af00adb22c6bb ++ natToBytes 64 0x0000000000000000000000000000000008b3f481e3aaa0f1a09e30ed741d8ae4fcf5e095d5d00af600db18cb2c04b3edd03cc744a2888ae40caa232946c5e7e1


/-- Test vector 4 input (bls_g1multiexp_(1*p1=p1)), 1 pair(s). -/
def c7in4 : List Nat :=
    natToBytes 64 0x00000000000000000000000000000000112b98340eee2777cc3c14163dea3ec97977ac3dc5c70da32e6e87578f44912e902ccef9efe28d4a78b8999dfbca9426 ++ natToBytes 64 0x00000000000000000000000000000000186b28d92356c4dfec4b5201ad099dbdede3781f8998ddf929b4cd7756192185ca7b8f4ef7088f813270ac3d48868a21 ++ natToBytes 32 0x0000000000000000000000000000000000000000000000000000000000000001

/-- Test vector 4 expected output. -/
def c7out4 : List Nat := natToBytes 64 0x00000000000000000000000000000000112b98340eee2777cc3c14163dea3ec97977ac3dc5c70da32e6e87578f44912e902ccef9efe28d4a78b8999dfbca9426 ++ natToBytes 64 0x00000000000000000000000000000000186b28d92356c4dfec4b5201ad099dbdede3781f8998ddf929b4cd7756192185ca7b8f4ef7088f813270ac3d48868a21


/-- Test vector 5 input (bls_g1multiexp_(0*g1=inf)), 1 pair(s). -/
def c7in5 : List Nat :=
    natToBytes 64 0x0000000000000000000000000000000017f1d3a73197d7942695638c4fa9ac0fc3688c4f9774b905a14e3a3f171bac586c55e83ff97a1aeffb3af00adb22c6bb ++ natToBytes 64 0x0000000000000000000000000000000008b3f481e3aaa0f1a09e30ed741d8ae4fcf5e095d5d00af600db18cb2c04b3edd03cc744a2888ae40caa232946c5e7e1 ++ natToBytes 32 0x0000000000000000000000000000000000000000000000000000000000000000

/-- Test vector 5 expected output. -/
def c7out5 : List Nat := natToBytes 64 0x00000000000000000000000000000000000000000000000000000000000000000000000000000000000000000000000000000000000000000000000000000000 ++ natToBytes 64 0x00000000000000000000000000000000000000000000000000000000000000000000000000000000000000000000000000000000000000000000000000000000


/-- Test vector 6 input (bls_g1multiexp_(0*p1=inf)), 1 pair(s). -/
def c7in6 : List Nat :=
    natToBytes 64 0x00000000000000000000000000000000112b98340eee2777cc3c14163dea3ec97977ac3dc5c70da32e6e87578f44912e902ccef9efe28d4a78b8999dfbca9426 ++ natToBytes 64 0x00000000000000000000000000000000186b28d92356c4dfec4b5201ad099dbdede3781f8998ddf929b4cd7756192185ca7b8f4ef7088f813270ac3d48868a21 ++ natToBytes 32 0x0000000000000000000000000000000000000000000000000000000000000000

/-- Test vector 6 expected output. -/
def c7out6 : List Nat := natToBytes 64 0x00000000000000000000000000000000000000000000000000000000000000000000000000000000000000000000000000000000000000000000000000000000 ++ natToBytes 64 0x00000000000000000000000000000000000000000000000000000000000000000000000000000000000000000000000000000000000000000000000000000000


/-- Test vector 7 input (bls_g1multiexp_(x*inf=inf)), 1 pair(s). -/
def c7in7 : List Nat :=
    natToBytes 64 0x00000000000000000000000000000000000000000000000000000000000000000000000000000000000000000000000000000000000000000000000000000000 ++ natToBytes 64 0x00000000000000000000000000000000000000000000000000000000000000000000000000000000000000000000000000000000000000000000000000000000 ++ natToBytes 32 0x0000000000000000000000000000000000000000000000000000000000000011

/-- Test vector 7 expected output. -/
def c7out7 : List Nat := natToBytes 64 0x00000000000000000000000000000000000000000000000000000000000000000000000000000000000000000000000000000000000000000000000000000000 ++ natToBytes 64 0x00000000000000000000000000000000000000000000000000000000000000000000000000000000000000000000000000000000000000000000000000000000


/-- Test vector 8 input (bls_g1multiexp_(2g1+inf)), 2 pair(s). -/
def c7in8 : List Nat :=
    natToBytes 64 0x0000000000000000000000000000000017f1d3a73197d7942695638c4fa9ac0fc3688c4f9774b905a14e3a3f171bac586c55e83ff97a1aeffb3af00adb22c6bb ++ natToBytes 64 0x0000000000000000000000000000000008b3f481e3aaa0f1a09e30ed741d8ae4fcf5e095d5d00af600db18cb2c04b3edd03cc744a2888ae40caa232946c5e7e1 ++ natToBytes 32 0x0000000000000000000000000000000000000000000000000000000000000002 ++
    natToBytes 64 0x0000000000000000000000000000000017f1d3a73197d7942695638c4fa9ac0fc3688c4f9774b905a14e3a3f171bac586c55e83ff97a1aeffb3af00adb22c6bb ++ natToBytes 64 0x0000000000000000000000000000000008b3f481e3aaa0f1a09e30ed741d8ae4fcf5e095d5d00af600db18cb2c04b3edd03cc744a2888ae40caa232946c5e7e1 ++ natToBytes 32 0x0000000000000000000000000000000000000000000000000000000000000000

/-- Test vector 8 expected output. -/
def c7out8 : List Nat := natToBytes 64 0x000000000000000000000000000000000572cbea904d67468808c8eb50a9450c9721db309128012543902d0ac358a62ae28f75bb8f1c7c42c39a8c5529bf0f4e ++ natToBytes 64 0x00000000000000000000000000000000166a9d8cabc673a322fda673779d8e3822ba3ecb8670e461f73bb9021d5fd76a4c56d9d4cd16bd1bba86881979749d28


/-- Test vector 9 input (bls_g1multiexp_(inf+inf)), 2 pair(s). -/
def c7in9 : List Nat :=
    natToBytes 64 0x0000000000000000000000000000000017f1d3a73197d7942695638c4fa9ac0fc3688c4f9774b905a14e3a3f171bac586c55e83ff97a1aeffb3af00adb22c6bb ++ natToBytes 64 0x0000000000000000000000000000000008b3f481e3aaa0f1a09e30ed741d8ae4fcf5e095d5d00af600db18cb2c04b3edd03cc744a2888ae40caa232946c5e7e1 ++ natToBytes 32 0x0000000000000000000000000000000000000000000000000000000000000000 ++
    natToBytes 64 0x0000000000000000000000000000000017f1d3a73197d7942695638c4fa9ac0fc3688c4f9774b905a14e3a3f171bac586c55e83ff97a1aeffb3af00adb22c6bb ++ natToBytes 64 0x0000000000000000000000000000000008b3f481e3aaa0f1a09e30ed741d8ae4fcf5e095d5d00af600db18cb2c04b3edd03cc744a2888ae40caa232946c5e7e1 ++ natToBytes 32 0x0000000000000000000000000000000000000000000000000000000000000000

/-- Test vector 9 expected output. -/
def c7out9 : List Nat := natToBytes 64 0x00000000000000000000000000000000000000000000000000000000000000000000000000000000000000000000000000000000000000000000000000000000 ++ natToBytes 64 0x00000000000000000000000000000000000000000000000000000000000000000000000000000000000000000000000000000000000000000000000000000000


/-- Test vector 10 input (bls_g1multiexp_(2g1+2p1)), 2 pair(s). -/
def c7in10 : List Nat :=
    natToBytes 64 0x0000000000000000000000000000000017f1d3a73197d7942695638c4fa9ac0fc3688c4f9774b905a14e3a3f171bac586c55e83ff97a1aeffb3af00adb22c6bb ++ natToBytes 64 0x0000000000000000000000000000000008b3f481e3aaa0f1a09e30ed741d8ae4fcf5e095d5d00af600db18cb2c04b3edd03cc744a2888ae40caa232946c5e7e1 ++ natToBytes 32 0x0000000000000000000000000000000000000000000000000000000000000002 ++
    natToBytes 64 0x00000000000000000000000000000000112b98340eee2777cc3c14163dea3ec97977ac3dc5c70da32e6e87578f44912e902ccef9efe28d4a78b8999dfbca9426 ++ natToBytes 64 0x00000000000000000000000000000000186b28d92356c4dfec4b5201ad099dbdede3781f8998ddf929b4cd7756192185ca7b8f4ef7088f813270ac3d48868a21 ++ natToBytes 32 0x0000000000000000000000000000000000000000000000000000000000000002

/-- Test vector 10 expected output. -/
def c7out10 : List Nat := natToBytes 64 0x00000000000000000000000000000000148f92dced907361b4782ab542a75281d4b6f71f65c8abf94a5a9082388c64662d30fd6a01ced724feef3e284752038c ++ natToBytes 64 0x0000000000000000000000000000000015c3634c3b67bc18e19150e12bfd8a1769306ed010f59be645a0823acb5b38f39e8e0d86e59b6353fdafc59ca971b769


/-- Test vector 11 input (bls_g1multiexp_multiple), 7 pair(s). -/
def c7in11 : List Nat :=
    natToBytes 64 0x0000000000000000000000000000000017f1d3a73197d7942695638c4fa9ac0fc3688c4f9774b905a14e3a3f171bac586c55e83ff97a1aeffb3af00adb22c6bb ++ natToBytes 64 0x0000000000000000000000000000000008b3f481e3aaa0f1a09e30ed741d8ae4fcf5e095d5d00af600db18cb2c04b3edd03cc744a2888ae40caa232946c5e7e1 ++ natToBytes 32 0x263dbd792f5b1be47ed85f8938c0f29586af0d3ac7b977f21c278fe1462040e3 ++
    natToBytes 64 0x00000000000000000000000000000000112b98340eee2777cc3c14163dea3ec97977ac3dc5c70da32e6e87578f44912e902ccef9efe28d4a78b8999dfbca9426 ++ natToBytes 64 0x00000000000000000000000000000000186b28d92356c4dfec4b5201ad099dbdede3781f8998ddf929b4cd7756192185ca7b8f4ef7088f813270ac3d48868a21 ++ natToBytes 32 0x47b8192d77bf871b62e87859d653922725724a5c031afeabc60bcef5ff665138 ++
    natToBytes 64 0x00000000000000000000000000000000184bb665c37ff561a89ec2122dd343f20e0f4cbcaec84e3c3052ea81d1834e192c426074b02ed3dca4e7676ce4ce48ba ++ natToBytes 64 0x0000000000000000000000000000000004407b8d35af4dacc809927071fc0405218f1401a6d15af775810e4e460064bcc9468beeba82fdc751be70476c888bf3 ++ natToBytes 32 0x328388aff0d4a5b7dc9205abd374e7e98f3cd9f3418edb4eafda5fb16473d216 ++
    natToBytes 64 0x00000000000000000000000000000000009769f3ab59bfd551d53a5f846b9984c59b97d6842b20a2c565baa167945e3d026a3755b6345df8ec7e6acb6868ae6d ++ natToBytes 64 0x000000000000000000000000000000001532c00cf61aa3d0ce3e5aa20c3b531a2abd2c770a790a2613818303c6b830ffc0ecf6c357af3317b9575c567f11cd2c ++ natToBytes 32 0x263dbd792f5b1be47ed85f8938c0f29586af0d3ac7b977f21c278fe1462040e2 ++
    natToBytes 64 0x000000000000000000000000000000001974dbb8e6b5d20b84df7e625e2fbfecb2cdb5f77d5eae5fb2955e5ce7313cae8364bc2fff520a6c25619739c6bdcb6a ++ natToBytes 64 0x0000000000000000000000000000000015f9897e11c6441eaa676de141c8d83c37aab8667173cbe1dfd6de74d11861b961dccebcd9d289ac633455dfcc7013a3 ++ natToBytes 32 0x47b8192d77bf871b62e87859d653922725724a5c031afeabc60bcef5ff665131 ++
    natToBytes 64 0x000000000000000000000000000000000a7a047c4a8397b3446450642c2ac64d7239b61872c9ae7a59707a8f4f950f101e766afe58223b3bff3a19a7f754027c ++ natToBytes 64 0x000000000000000000000000000000001383aebba1e4327ccff7cf9912bda0dbc77de048b71ef8c8a81111d71dc33c5e3aa6edee9cf6f5fe525d50cc50b77cc9 ++ natToBytes 32 0x328388aff0d4a5b7dc9205abd374e7e98f3cd9f3418edb4eafda5fb16473d211 ++
    natToBytes 64 0x000000000000000000000000000000000e7a16a975904f131682edbb03d9560d3e48214c9986bd50417a77108d13dc957500edf96462a3d01e62dc6cd468ef11 ++ natToBytes 64 0x000000000000000000000000000000000ae89e677711d05c30a48d6d75e76ca9fb70fe06c6dd6ff988683d89ccde29ac7d46c53bb97a59b1901abf1db66052db ++ natToBytes 32 0x55b53c4669f19f0fc7431929bc0363d7d8fb432435fcde2635fdba334424e9f5

/-- Test vector 11 expected output. -/
def c7out11 : List Nat := natToBytes 64 0x00000000000000000000000000000000053fbdb09b6b5faa08bfe7b7069454247ad4d8bd57e90e2d2ebaa04003dcf110aa83072c07f480ab2107cca2ccff6091 ++ natToBytes 64 0x000000000000000000000000000000001654537b7c96fe64d13906066679c3d45808cb666452b55d1b909c230cc4b423c3f932c58754b9b762dc49fcc825522c


end EvmModel

namespace BlockModel

/-- The slice of `Common` that `packages/block/src/block.ts` consults:
whether an EIP is active and the two blob-gas parameters
(`common.param('gasConfig', ...)`). -/
structure MCommon where
  eip1559 : Bool
  eip4844 : Bool
  eip4895 : Bool
  consensusIsPoA : Bool
  consensusIsPoS : Bool
  maxblobGasPerBlock : Nat
  blobGasPerBlob : Nat
deriving DecidableEq, Repr

/-- The slice of `BlockHeader` that `block.ts` reads.  The header class
itself (`header.ts`) is not part of the snapshot, so its two blob methods
are carried as opaque per-header values: `calcNextExcessBlobGas` is the
value `header.calcNextExcessBlobGas()` returns and `getBlobGasPrice` the
value `header.getBlobGasPrice()` returns. -/
structure MHeader where
  hashVal : Nat
  excessBlobGas : Option Nat
  blobGasUsed : Option Nat
  calcNextExcessBlobGas : Nat
  getBlobGasPrice : Nat
deriving DecidableEq, Repr

/-- The slice of a transaction that `block.ts` reads: blob transactions
(`tx instanceof BlobEIP4844Transaction`) carry `maxFeePerBlobGas` and their
`versionedHashes`; every other transaction kind is opaque here. -/
inductive MTx
  | blob (maxFeePerBlobGas : Nat) (numVersionedHashes : Nat)
  | other
deriving DecidableEq, Repr

/-- The `Block` fields relevant to the claims: the four object fields frozen
by the constructor, the mutable `txTrie` helper trie, the `common`
configuration and the frozen flag (`Object.freeze(this)` forbids
reassigning the object's own properties). -/
structure MBlock where
  header : MHeader
  transactions : List MTx
  uncleHeaders : List MHeader
  withdrawals : Option (List Nat)
  txTrie : List Nat
  common : MCommon
  frozen : Bool
deriving DecidableEq, Repr

/-- The `BlockOptions` consulted by the constructor. -/
structure MBlockOpts where
  freeze : Option Bool
deriving DecidableEq, Repr

/-- `Block.validateUncles` (block.ts): at most 2 uncles, no duplicate uncle
hashes.  (The genesis early-return is elided: the constructor only calls
this when `uncleHeaders.length > 0`, and the model block is not a genesis
block.)  Returns an error message exactly when the source throws. -/
def validateUncles (uncleHeaders : List MHeader) : Option String :=
  if 2 < uncleHeaders.length then some "too many uncle headers"
  else
    let hashes := uncleHeaders.map (fun h => h.hashVal)
    if hashes.Nodup then none else some "duplicate uncles"

/-- The `Block` constructor (block.ts, `constructor`): assign the fields,
default `withdrawals` to `[]` when EIP-4895 is active, validate uncles and
the consensus type when uncles are present, reject a `withdrawals` argument
when EIP-4895 is inactive, and finally freeze the object unless
`opts.freeze` was explicitly set to `false`
(`const freeze = opts?.freeze ?? true`). -/
def mkBlock (header : MHeader) (transactions : List MTx) (uncleHeaders : List MHeader)
    (withdrawals : Option (List Nat)) (common : MCommon) (opts : MBlockOpts) :
    Except String MBlock :=
  let wds := match withdrawals with
    | some w => some w
    | none => if common.eip4895 then some [] else none
  if 0 < uncleHeaders.length then
    match validateUncles uncleHeaders with
    | some msg => .error msg
    | none =>
      if common.consensusIsPoA then
        .error "Block initialization with uncleHeaders on a PoA network is not allowed"
      else if common.consensusIsPoS then
        .error "Block initialization with uncleHeaders on a PoS network is not allowed"
      else if ¬common.eip4895 ∧ withdrawals.isSome then
        .error "Cannot have a withdrawals field if EIP 4895 is not active"
      else
        .ok ⟨header, transactions, uncleHeaders, wds, [], common, opts.freeze.getD true⟩
  else if ¬common.eip4895 ∧ withdrawals.isSome then
    .error "Cannot have a withdrawals field if EIP 4895 is not active"
  else
    .ok ⟨header, transactions, uncleHeaders, wds, [], common, opts.freeze.getD true⟩

/-- The four frozen object fields of a `Block`. -/
inductive BlockField
  | header
  | transactions
  | uncleHeaders
  | withdrawals
deriving DecidableEq, Repr

/-- A value to assign to a `Block` field. -/
inductive BlockFieldVal
  | header (h : MHeader)
  | transactions (t : List MTx)
  | uncleHeaders (u : List MHeader)
  | withdrawals (w : Option (List Nat))
deriving DecidableEq, Repr

/-- Reassigning an own property of a frozen object throws a `TypeError`
(strict mode); on an unfrozen block the assignment lands. -/
def assignField (b : MBlock) (v : BlockFieldVal) : Except String MBlock :=
  if b.frozen then .error "Cannot assign to read only property of frozen object"
  else
    match v with
    | .header h => .ok { b with header := h }
    | .transactions t => .ok { b with transactions := t }
    | .uncleHeaders u => .ok { b with uncleHeaders := u }
    | .withdrawals w => .ok { b with withdrawals := w }

/-- The observable operations of a constructed `Block` exercised by the
claim: `raw`, `hash`, `serialize`, `toJSON` and the validation methods.
`genTxTrie`/`transactionsTrieIsValid` (re)generate the helper `txTrie`
contents; none of the operations writes to `header`, `transactions`,
`uncleHeaders` or `withdrawals`. -/
inductive BlockOp
  | raw
  | hash
  | serialize
  | toJSON
  | validateUncles
  | genTxTrie
  | transactionsTrieIsValid
  | validateBlobTransactions (parentHeader : MHeader)
deriving DecidableEq, Repr

/-- `tx.serialize()` stand-in used to fill the helper transactions trie. -/
def txTrieContents (txs : List MTx) : List Nat := txs.map (fun _ => 1)

/-- `Block.validateBlobTransactions(parentHeader)` (block.ts): the loop body
over `this.transactions`, carrying the accumulated `blobGasUsed`.  For each
`BlobEIP4844Transaction`: reject when `tx.maxFeePerBlobGas` is below the
block's blob gas price, accumulate `versionedHashes.length * blobGasPerBlob`
and reject when the accumulated value exceeds `maxblobGasPerBlock`. -/
def checkBlobTxs (blobGasPrice blobGasPerBlob blobGasLimit : Nat) :
    List MTx → Nat → Except String Nat
  | [], acc => .ok acc
  | .other :: rest, acc => checkBlobTxs blobGasPrice blobGasPerBlob blobGasLimit rest acc
  | .blob fee n :: rest, acc =>
    if fee < blobGasPrice then
      .error "blob transaction maxFeePerBlobGas < than block blob gas price"
    else
      let acc' := acc + n * blobGasPerBlob
      if blobGasLimit < acc' then
        .error "tx causes total blob gas to exceed maximum blob gas per block"
      else checkBlobTxs blobGasPrice blobGasPerBlob blobGasLimit rest acc'

/-- `Block.validateBlobTransactions(parentHeader)` (block.ts): when EIP-4844
is active, require `header.excessBlobGas` to equal
`parentHeader.calcNextExcessBlobGas()`, walk the transactions with
`checkBlobTxs`, and finally require `header.blobGasUsed` to equal the
accumulated blob gas; when EIP-4844 is inactive, return without checking
anything.  The method only reads the block, it never writes to it. -/
def validateBlobTransactions (b : MBlock) (parentHeader : MHeader) : Except String Unit :=
  if b.common.eip4844 then
    let expectedExcessBlobGas := parentHeader.calcNextExcessBlobGas
    if b.header.excessBlobGas ≠ some expectedExcessBlobGas then
      .error "block excessBlobGas mismatch"
    else
      match checkBlobTxs b.header.getBlobGasPrice b.common.blobGasPerBlob
          b.common.maxblobGasPerBlock b.transactions 0 with
      | .error msg => .error msg
      | .ok blobGasUsed =>
        if b.header.blobGasUsed ≠ some blobGasUsed then
          .error "block blobGasUsed mismatch"
        else .ok ()
  else .ok ()

/-- Run one observable block operation; the result value is elided (the
claims are about the effect on the block object), the returned block is the
object after the call. -/
def runBlockOp (b : MBlock) (op : BlockOp) : MBlock :=
  match op with
  | .raw => b
  | .hash => b
  | .serialize => b
  | .toJSON => b
  | .validateUncles => b
  | .genTxTrie => { b with txTrie := txTrieContents b.transactions }
  | .transactionsTrieIsValid =>
    if b.txTrie.isEmpty then { b with txTrie := txTrieContents b.transactions } else b
  | .validateBlobTransactions _ => b

/-- The cumulative blob gas of a block's blob transactions
(`versionedHashes.length * blobGasPerBlob`, summed). -/
def totalBlobGas (blobGasPerBlob : Nat) : List MTx → Nat
  | [] => 0
  | .other :: rest => totalBlobGas blobGasPerBlob rest
  | .blob _ n :: rest => n * blobGasPerBlob + totalBlobGas blobGasPerBlob rest

/-- Whether some blob transaction's `maxFeePerBlobGas` is below the block's
blob gas price. -/
def hasUnderpricedBlobTx (blobGasPrice : Nat) : List MTx → Prop
  | [] => False
  | .other :: rest => hasUnderpricedBlobTx blobGasPrice rest
  | .blob fee _ :: rest => fee < blobGasPrice ∨ hasUnderpricedBlobTx blobGasPrice rest

instance hasUnderpricedBlobTxDec (p : Nat) : ∀ l, Decidable (hasUnderpricedBlobTx p l)
  | [] => by unfold hasUnderpricedBlobTx; exact inferInstance
  | .other :: rest => by
    unfold hasUnderpricedBlobTx; exact hasUnderpricedBlobTxDec p rest
  | .blob _ _ :: rest => by
    unfold hasUnderpricedBlobTx
    have := hasUnderpricedBlobTxDec p rest
    exact inferInstance

end BlockModel

namespace EvmModel

theorem toWord_natCast (n : Nat) : toWord (n : Int) = n % TWO_POW256 := by
  unfold toWord TWO_POW256
  omega

theorem toWord_lt (i : Int) : toWord i < TWO_POW256 := by
  unfold toWord
  have hpos : (0 : Int) < (TWO_POW256 : Int) := by
    have : (0 : Nat) < TWO_POW256 := by unfold TWO_POW256; positivity
    exact_mod_cast this
  have h := Int.emod_lt_of_pos i hpos
  omega

theorem TWO_POW256_pos : 0 < TWO_POW256 := by
  unfold TWO_POW256; positivity

/-- C2: for every arithmetic instruction and every pair of 256-bit operand
values, the value pushed on the operand stack equals the exact mathematical
result of the operation reduced modulo `2^256`; signed variants reinterpret
the operands as two's-complement before computing. -/
theorem arith_ops_mod_two_pow_256 (op : ArithOp) (a b : Nat)
    (ha : a < TWO_POW256) (hb : b < TWO_POW256) :
    execArith op a b = toWord (mathArith op a b) ∧ execArith op a b < TWO_POW256 := by
  cases op with
  | ADD =>
    constructor
    · show (a + b) % TWO_POW256 = toWord ((a : Int) + b)
      rw [show ((a : Int) + b) = ((a + b : Nat) : Int) by push_cast; ring, toWord_natCast]
    · exact Nat.mod_lt _ TWO_POW256_pos
  | MUL =>
    constructor
    · show (a * b) % TWO_POW256 = toWord ((a : Int) * b)
      rw [show ((a : Int) * b) = ((a * b : Nat) : Int) by push_cast; ring, toWord_natCast]
    · exact Nat.mod_lt _ TWO_POW256_pos
  | SUB => exact ⟨rfl, toWord_lt _⟩
  | DIV =>
    by_cases hb0 : b = 0
    · simp [execArith, mathArith, hb0, toWord, TWO_POW256_pos]
    · constructor
      · simp only [execArith, mathArith, if_neg hb0]
        rw [toWord_natCast, Nat.mod_eq_of_lt (lt_of_le_of_lt (Nat.div_le_self a b) ha)]
      · simpa [execArith, hb0] using lt_of_le_of_lt (Nat.div_le_self a b) ha
  | SDIV =>
    by_cases hb0 : b = 0
    · simp [execArith, mathArith, hb0, toWord, TWO_POW256_pos]
    · exact ⟨by simp [execArith, mathArith, hb0], by simp [execArith, hb0]; exact toWord_lt _⟩
  | MOD =>
    by_cases hb0 : b = 0
    · simp [execArith, mathArith, hb0, toWord, TWO_POW256_pos]
    · constructor
      · simp only [execArith, mathArith, if_neg hb0]
        rw [toWord_natCast, Nat.mod_eq_of_lt (lt_of_le_of_lt (Nat.mod_le a b) ha)]
      · simpa [execArith, hb0] using lt_of_le_of_lt (Nat.mod_le a b) ha
  | SMOD =>
    by_cases hb0 : b = 0
    · simp [execArith, mathArith, hb0, toWord, TWO_POW256_pos]
    · exact ⟨by simp [execArith, mathArith, hb0], by simp [execArith, hb0]; exact toWord_lt _⟩
  | EXP =>
    constructor
    · show (a ^ b) % TWO_POW256 = toWord (((a ^ b : Nat) : Int))
      rw [toWord_natCast]
    · exact Nat.mod_lt _ TWO_POW256_pos

/-- Witness for C2 at a concrete instruction and concrete 256-bit operands:
`SUB` on `(3, 5)` wraps around to `2^256 - 2`. -/
theorem arith_ops_mod_two_pow_256_witness :
    3 < TWO_POW256 ∧ 5 < TWO_POW256 ∧
      (execArith .SUB 3 5 = toWord (mathArith .SUB 3 5) ∧ execArith .SUB 3 5 < TWO_POW256) :=
  ⟨by unfold TWO_POW256; norm_num, by unfold TWO_POW256; norm_num,
    arith_ops_mod_two_pow_256 .SUB 3 5 (by unfold TWO_POW256; norm_num)
      (by unfold TWO_POW256; norm_num)⟩

theorem instrBoundsAux_le (l : List Nat) :
    ∀ skip i t, t ∈ instrBoundsAux l skip i → i ≤ t := by
  induction l with
  | nil => intro skip i t h; simp [instrBoundsAux] at h
  | cons b rest ih =>
    intro skip i t h
    unfold instrBoundsAux at h
    by_cases hs : 0 < skip
    · rw [if_pos hs] at h
      exact le_trans (Nat.le_succ i) (ih _ _ _ h)
    · rw [if_neg hs] at h
      by_cases hp : isPushOp b = true
      · rw [if_pos hp] at h
        rcases List.mem_cons.mp h with h | h
        · omega
        · exact le_trans (Nat.le_succ i) (ih _ _ _ h)
      · rw [if_neg hp] at h
        rcases List.mem_cons.mp h with h | h
        · omega
        · exact le_trans (Nat.le_succ i) (ih _ _ _ h)

theorem jumpDestsAux_le (l : List Nat) :
    ∀ skip i t, t ∈ jumpDestsAux l skip i → i ≤ t := by
  induction l with
  | nil => intro skip i t h; simp [jumpDestsAux] at h
  | cons b rest ih =>
    intro skip i t h
    unfold jumpDestsAux at h
    by_cases hs : 0 < skip
    · rw [if_pos hs] at h
      exact le_trans (Nat.le_succ i) (ih _ _ _ h)
    · rw [if_neg hs] at h
      by_cases hj : b = JUMPDEST_BYTE
      · rw [if_pos hj] at h
        rcases List.mem_cons.mp h with h | h
        · omega
        · exact le_trans (Nat.le_succ i) (ih _ _ _ h)
      · rw [if_neg hj] at h
        by_cases hp : isPushOp b = true
        · rw [if_pos hp] at h
          exact le_trans (Nat.le_succ i) (ih _ _ _ h)
        · rw [if_neg hp] at h
          exact le_trans (Nat.le_succ i) (ih _ _ _ h)

theorem getElem?_cons_of_ge (b : Nat) (rest : List Nat) (i t : Nat) (h : i + 1 ≤ t) :
    (b :: rest)[t - i]? = rest[t - (i + 1)]? := by
  have hti : t - i = (t - (i + 1)) + 1 := by omega
  rw [hti, List.getElem?_cons_succ]

/-- The scan of `jumpDestsAux` finds exactly the marker bytes that sit on a
true instruction boundary. -/
theorem jumpDestsAux_mem_iff (l : List Nat) :
    ∀ skip i t, t ∈ jumpDestsAux l skip i ↔
      t ∈ instrBoundsAux l skip i ∧ l[t - i]? = some JUMPDEST_BYTE := by
  induction l with
  | nil => intro skip i t; simp [jumpDestsAux, instrBoundsAux]
  | cons b rest ih =>
    intro skip i t
    unfold jumpDestsAux instrBoundsAux
    by_cases hs : 0 < skip
    · rw [if_pos hs, if_pos hs]
      constructor
      · intro h
        have hle := jumpDestsAux_le rest _ _ _ h
        have := (ih _ _ t).mp h
        exact ⟨this.1, by rw [getElem?_cons_of_ge b rest i t hle]; exact this.2⟩
      · rintro ⟨hb, hbyte⟩
        have hle := instrBoundsAux_le rest _ _ _ hb
        exact (ih _ _ t).mpr ⟨hb, by rw [getElem?_cons_of_ge b rest i t hle] at hbyte; exact hbyte⟩
    · rw [if_neg hs, if_neg hs]
      by_cases hj : b = JUMPDEST_BYTE
      · have hp : ¬isPushOp b = true := by
          subst hj; unfold isPushOp JUMPDEST_BYTE; decide
        rw [if_pos hj, if_neg hp]
        by_cases hti : t = i
        · subst hti
          simp [hj]
        · constructor
          · intro h
            rcases List.mem_cons.mp h with h | h
            · exact absurd h hti
            · have hle := jumpDestsAux_le rest _ _ _ h
              have := (ih _ _ t).mp h
              refine ⟨List.mem_cons.mpr (Or.inr this.1), ?_⟩
              rw [getElem?_cons_of_ge b rest i t hle]; exact this.2
          · rintro ⟨hb', hbyte⟩
            rcases List.mem_cons.mp hb' with h | h
            · exact absurd h hti
            · have hle := instrBoundsAux_le rest _ _ _ h
              rw [getElem?_cons_of_ge b rest i t hle] at hbyte
              exact List.mem_cons.mpr (Or.inr ((ih _ _ t).mpr ⟨h, hbyte⟩))
      · rw [if_neg hj]
        by_cases hp : isPushOp b = true
        · rw [if_pos hp, if_pos hp]
          by_cases hti : t = i
          · subst hti
            constructor
            · intro h
              have hle := jumpDestsAux_le rest _ _ _ h
              omega
            · rintro ⟨_, hbyte⟩
              rw [Nat.sub_self, List.getElem?_cons_zero] at hbyte
              exact absurd (Option.some.inj hbyte) hj
          · constructor
            · intro h
              have hle := jumpDestsAux_le rest _ _ _ h
              have := (ih _ _ t).mp h
              refine ⟨List.mem_cons.mpr (Or.inr this.1), ?_⟩
              rw [getElem?_cons_of_ge b rest i t hle]; exact this.2
            · rintro ⟨hb', hbyte⟩
              rcases List.mem_cons.mp hb' with h | h
              · exact absurd h hti
              · have hle := instrBoundsAux_le rest _ _ _ h
                rw [getElem?_cons_of_ge b rest i t hle] at hbyte
                exact (ih _ _ t).mpr ⟨h, hbyte⟩
        · rw [if_neg hp, if_neg hp]
          by_cases hti : t = i
          · subst hti
            constructor
            · intro h
              have hle := jumpDestsAux_le rest _ _ _ h
              omega
            · rintro ⟨_, hbyte⟩
              rw [Nat.sub_self, List.getElem?_cons_zero] at hbyte
              exact absurd (Option.some.inj hbyte) hj
          · constructor
            · intro h
              have hle := jumpDestsAux_le rest _ _ _ h
              have := (ih _ _ t).mp h
              refine ⟨List.mem_cons.mpr (Or.inr this.1), ?_⟩
              rw [getElem?_cons_of_ge b rest i t hle]; exact this.2
            · rintro ⟨hb', hbyte⟩
              rcases List.mem_cons.mp hb' with h | h
              · exact absurd h hti
              · have hle := instrBoundsAux_le rest _ _ _ h
                rw [getElem?_cons_of_ge b rest i t hle] at hbyte
                exact (ih _ _ t).mpr ⟨h, hbyte⟩

/-- C4: a JUMP/JUMPI target that lies inside the push-data of a PUSH
instruction is rejected with `InvalidJumpTarget` even when its byte value
equals the jump-destination marker; the valid destinations are exactly the
marker bytes found by the single scan that skips over embedded push-data
bytes, i.e. the marker bytes sitting on a true instruction boundary. -/
theorem push_data_jump_rejected (code : List Nat) (t : Nat) :
    (t ∈ validJumpDests code ↔ t ∈ instrBounds code ∧ code[t]? = some JUMPDEST_BYTE) ∧
    (t ∉ instrBounds code → code[t]? = some JUMPDEST_BYTE →
      (∀ (c : Core) (rest : List Nat), c.stack = t :: rest →
        exec code .JUMP c = .fail .InvalidJumpTarget) ∧
      (∀ (c : Core) (cond : Nat) (rest : List Nat), c.stack = t :: cond :: rest → cond ≠ 0 →
        exec code .JUMPI c = .fail .InvalidJumpTarget)) := by
  have h := jumpDestsAux_mem_iff code 0 0 t
  rw [Nat.sub_zero] at h
  refine ⟨h, ?_⟩
  intro hnb _hbyte
  have hnv : t ∉ validJumpDests code := fun hv => hnb (h.mp hv).1
  constructor
  · intro c rest hst
    simp [exec, hst, hnv]
  · intro c cond rest hst hcond
    simp [exec, hst, hnv, hcond]

/-- Witness for C4: in the code `PUSH1 0x5b; STOP`, offset 1 carries the
marker byte but lies inside the push-data, so a JUMP to it (and a taken
JUMPI) fails with `InvalidJumpTarget`. -/
theorem push_data_jump_rejected_witness :
    (1 ∉ instrBounds [0x60, 0x5b, 0x00] ∧ [0x60, 0x5b, 0x00][1]? = some JUMPDEST_BYTE) ∧
    exec [0x60, 0x5b, 0x00] .JUMP ⟨0, [1], [], []⟩ = .fail .InvalidJumpTarget ∧
    exec [0x60, 0x5b, 0x00] .JUMPI ⟨0, [1, 1], [], []⟩ = .fail .InvalidJumpTarget :=
  ⟨⟨by decide, by decide⟩,
    ((push_data_jump_rejected [0x60, 0x5b, 0x00] 1).2 (by decide) (by decide)).1
      ⟨0, [1], [], []⟩ [] rfl,
    ((push_data_jump_rejected [0x60, 0x5b, 0x00] 1).2 (by decide) (by decide)).2
      ⟨0, [1, 1], [], []⟩ 1 [] rfl (by decide)⟩

theorem exec_cont_stack_len (code : List Nat) (i : Instr) (c c' : Core)
    (hd : delta i ≤ c.stack.length) (h : exec code i c = .cont c') :
    c'.stack.length = c.stack.length - delta i + alpha i := by
  cases i <;>
    rcases hstk : c.stack with _ | ⟨a, _ | ⟨b, rest⟩⟩ <;>
      simp [exec, hstk, delta, alpha] at h hd ⊢ <;>
        (try split at h) <;> (try split at h) <;>
          (try cases h) <;> (try simp [hstk]) <;> (try omega)

theorem step_cont_stack (code : List Nat) (c c' : Core) (g g' : Nat)
    (hlen : c.stack.length ≤ 1024) (h : step code c g = .cont c' g') :
    c'.stack.length ≤ 1024 := by
  cases hdec : decode code c.pc with
  | none => simp only [step, hdec] at h; exact absurd h (by simp)
  | some i =>
    simp only [step, hdec] at h
    by_cases h1 : c.stack.length < delta i
    · rw [if_pos h1] at h; exact absurd h (by simp)
    · rw [if_neg h1] at h
      by_cases h2 : 1024 < c.stack.length - delta i + alpha i
      · rw [if_pos h2] at h; exact absurd h (by simp)
      · rw [if_neg h2] at h
        by_cases h3 : g < cost i
        · rw [if_pos h3] at h; exact absurd h (by simp)
        · rw [if_neg h3] at h
          cases hexe : exec code i c with
          | cont c1 =>
            rw [hexe] at h
            have hc1 : c1 = c' := by
              have := (StepRes.cont.injEq _ _ _ _).mp h
              exact this.1
            rw [← hc1, exec_cont_stack_len code i c c1 (by omega) hexe]
            omega
          | halt ok ret c1 => rw [hexe] at h; exact absurd h (by simp)
          | fail k => rw [hexe] at h; exact absurd h (by simp)

/-- C5: in every state of the interpreter loop reachable from a state whose
operand stack respects the bound, the stack depth lies in `[0, 1024]`; an
instruction that would pop below the bottom aborts with `StackUnderflow`
and one that would push past 1024 aborts with `StackOverflow`, in both
cases before any memory, storage or gas effect — the failing step returns
the frame and the gas exactly as they were. -/
theorem stack_depth_invariant (code : List Nat) (s0 s : Core × Nat)
    (h0 : s0.1.stack.length ≤ 1024) (hreach : Reached code s0 s) :
    (0 ≤ s.1.stack.length ∧ s.1.stack.length ≤ 1024) ∧
    (∀ i, decode code s.1.pc = some i → s.1.stack.length < delta i →
      step code s.1 s.2 = .fail .StackUnderflow s.1 s.2) ∧
    (∀ i, decode code s.1.pc = some i → delta i ≤ s.1.stack.length →
      1024 < s.1.stack.length - delta i + alpha i →
      step code s.1 s.2 = .fail .StackOverflow s.1 s.2) := by
  have hinv : s.1.stack.length ≤ 1024 := by
    induction hreach with
    | refl => exact h0
    | tail _hab hbc ih => exact step_cont_stack code _ _ _ _ ih hbc
  refine ⟨⟨Nat.zero_le _, hinv⟩, ?_, ?_⟩
  · intro i hdec hlt
    simp only [step, hdec]
    rw [if_pos hlt]
  · intro i hdec hge hover
    simp only [step, hdec]
    rw [if_neg (by omega), if_pos hover]

/-- Witness for C5 at the initial state of a concrete run (empty stack,
code `PUSH1 7`, 10 gas): reachability by reflexivity, and the `ADD`
underflow conjunct applied to the empty stack. -/
theorem stack_depth_invariant_witness :
    ((0 ≤ (initCore []).stack.length ∧ (initCore []).stack.length ≤ 1024) ∧
      (∀ i, decode [0x01] (initCore []).pc = some i →
        (initCore []).stack.length < delta i →
        step [0x01] (initCore []) 10 = .fail .StackUnderflow (initCore []) 10) ∧
      (∀ i, decode [0x01] (initCore []).pc = some i →
        delta i ≤ (initCore []).stack.length →
        1024 < (initCore []).stack.length - delta i + alpha i →
        step [0x01] (initCore []) 10 = .fail .StackOverflow (initCore []) 10)) ∧
    step [0x01] (initCore []) 10 = .fail .StackUnderflow (initCore []) 10 := by
  have h := stack_depth_invariant [0x01] ((initCore []), 10) ((initCore []), 10)
    (by decide) Relation.ReflTransGen.refl
  exact ⟨h, h.2.1 .ADD (by decide) (by decide)⟩

theorem step_shift (code : List Nat) (c : Core) (g d : Nat) :
    step code c g = .fail .OutOfGas c g ∨
    (match step code c g with
     | .cont c' g' => step code c (g + d) = .cont c' (g' + d)
     | .halt ok ret c' g' => step code c (g + d) = .halt ok ret c' (g' + d)
     | .fail k c' g' => step code c (g + d) = .fail k c' (g' + d)) := by
  cases hdec : decode code c.pc with
  | none => right; simp only [step, hdec]
  | some i =>
    by_cases h1 : c.stack.length < delta i
    · right; simp only [step, hdec, if_pos h1]
    · by_cases h2 : 1024 < c.stack.length - delta i + alpha i
      · right; simp only [step, hdec, if_neg h1, if_pos h2]
      · by_cases h3 : g < cost i
        · left; simp only [step, hdec, if_neg h1, if_neg h2, if_pos h3]
        · right
          have h3' : ¬ g + d < cost i := by omega
          have hgd : g + d - cost i = g - cost i + d := by omega
          cases hexe : exec code i c with
          | cont c1 =>
            simp only [step, hdec, if_neg h1, if_neg h2, if_neg h3, if_neg h3', hexe, hgd]
          | halt ok ret c1 =>
            simp only [step, hdec, if_neg h1, if_neg h2, if_neg h3, if_neg h3', hexe, hgd]
          | fail k =>
            simp only [step, hdec, if_neg h1, if_neg h2, if_neg h3, if_neg h3', hexe, hgd]

/-- Running the same code from the same frame with `d` more gas either
reproduces the smaller run's outcome with `d` more gas remaining, or the
smaller run fails with `OutOfGas`. -/
theorem runAux_shift (code : List Nat) :
    ∀ (fuel1 fuel2 : Nat) (c : Core) (g d : Nat), fuel1 ≤ fuel2 →
      (∃ c0 g0, runAux code fuel1 c g = .failed .OutOfGas c0 g0) ∨
      runAux code fuel2 c (g + d) = shiftOutcome d (runAux code fuel1 c g) := by
  intro fuel1
  induction fuel1 with
  | zero => intro fuel2 c g d _; exact Or.inl ⟨c, g, rfl⟩
  | succ n ih =>
    intro fuel2 c g d hle
    cases fuel2 with
    | zero => omega
    | succ m =>
      rcases step_shift code c g d with hoog | hsim
      · exact Or.inl ⟨c, g, by unfold runAux; rw [hoog]⟩
      · cases hstep : step code c g with
        | cont c' g' =>
          rw [hstep] at hsim
          rcases ih m c' g' d (by omega) with ⟨c0, g0, hsm⟩ | hbig
          · exact Or.inl ⟨c0, g0, by unfold runAux; rw [hstep]; exact hsm⟩
          · right
            show runAux code (m + 1) c (g + d) = _
            unfold runAux
            rw [hsim, hstep]
            exact hbig
        | halt ok ret c' g' =>
          rw [hstep] at hsim
          right
          show runAux code (m + 1) c (g + d) = _
          unfold runAux
          rw [hsim, hstep]
          cases ok <;> rfl
        | fail k c' g' =>
          rw [hstep] at hsim
          right
          show runAux code (m + 1) c (g + d) = _
          unfold runAux
          rw [hsim, hstep]
          rfl

theorem outcomeGas_shift (d : Nat) (o : Outcome) :
    outcomeGas (shiftOutcome d o) = outcomeGas o + d := by
  cases o <;> rfl

/-- C3: a frame whose execution spends more gas than the granted limit
fails with `OutOfGas` and reports the full limit as gas used (the spending
is measured by a reference run of the same code under a larger budget);
every non-revert failure likewise reports the full granted limit, while an
explicit REVERT reports exactly the gas spent up to the REVERT. -/
theorem out_of_gas_consumes_limit (code : List Nat) (store : List (Nat × Nat)) (limit : Nat) :
    (∀ G, limit < G → limit < spentBy code G store →
      runCode code limit store = (⟨some .OutOfGas, limit, []⟩, store)) ∧
    (∀ k, (runCode code limit store).1.failure = some k → k ≠ .RevertedByContract →
      (runCode code limit store).1.gasUsed = limit) ∧
    (∀ ret c g, runAux code (limit + 1) (initCore store) limit = .reverted ret c g →
      (runCode code limit store).1 = ⟨some .RevertedByContract, limit - g, ret⟩ ∧
        limit - g ≤ limit) := by
  refine ⟨?_, ?_, ?_⟩
  · intro G hG hsp
    rcases runAux_shift code (limit + 1) (G + 1) (initCore store) limit (G - limit)
        (by omega) with ⟨c0, g0, hoog⟩ | hbig
    · unfold runCode
      rw [hoog]
    · exfalso
      have hGlim : limit + (G - limit) = G := by omega
      rw [hGlim] at hbig
      unfold spentBy at hsp
      rw [hbig, outcomeGas_shift] at hsp
      omega
  · intro k hk _hne
    unfold runCode at hk ⊢
    cases houtcome : runAux code (limit + 1) (initCore store) limit <;> simp_all
  · intro ret c g hrev
    unfold runCode
    rw [hrev]
    exact ⟨rfl, by omega⟩

/-- Witness for C3: six `JUMPDEST`s cost 6 gas in a reference run with
budget 10, so running them with limit 5 fails with `OutOfGas` and reports
gas used 5 — the full limit. -/
theorem out_of_gas_consumes_limit_witness :
    (5 < 10 ∧ 5 < spentBy (List.replicate 6 0x5b) 10 []) ∧
    runCode (List.replicate 6 0x5b) 5 [] = (⟨some .OutOfGas, 5, []⟩, []) :=
  ⟨⟨by norm_num, by decide⟩,
    (out_of_gas_consumes_limit (List.replicate 6 0x5b) [] 5).1 10 (by norm_num) (by decide)⟩

/-- Running a call body on a journal with at least one open layer only ever
rewrites the newest layer: the base and the deeper layers come out exactly
as they went in, whatever writes, nested commits and nested reverts the
body performs. -/
theorem execBody_layers (p : CallBody) :
    ∀ (base : List (JKey × Nat)) (l : JLayer) (ls : List JLayer),
      ∃ l', execBody p ⟨base, l :: ls⟩ = ⟨base, l' :: ls⟩ := by
  induction p with
  | skip => intro base l ls; exact ⟨l, rfl⟩
  | write k v => intro base l ls; exact ⟨(k, v) :: l, rfl⟩
  | seq p q ihp ihq =>
    intro base l ls
    obtain ⟨l1, h1⟩ := ihp base l ls
    obtain ⟨l2, h2⟩ := ihq base l1 ls
    exact ⟨l2, by simp [execBody, h1, h2]⟩
  | nested body commits ih =>
    intro base l ls
    obtain ⟨lb, hb⟩ := ih base [] (l :: ls)
    cases commits with
    | true =>
      refine ⟨lb ++ l, ?_⟩
      show (if true then jcommit (execBody body (jcheckpoint ⟨base, l :: ls⟩))
        else jrevert (execBody body (jcheckpoint ⟨base, l :: ls⟩))) = _
      rw [if_pos rfl]
      have hcp : jcheckpoint (⟨base, l :: ls⟩ : Journal) = ⟨base, [] :: l :: ls⟩ := rfl
      rw [hcp, hb]
      rfl
    | false =>
      refine ⟨l, ?_⟩
      show (if false then jcommit (execBody body (jcheckpoint ⟨base, l :: ls⟩))
        else jrevert (execBody body (jcheckpoint ⟨base, l :: ls⟩))) = _
      rw [if_neg (by simp)]
      have hcp : jcheckpoint (⟨base, l :: ls⟩ : Journal) = ⟨base, [] :: l :: ls⟩ := rfl
      rw [hcp, hb]
      rfl

/-- Rolling back the checkpoint opened around a call body restores the
journal exactly. -/
theorem dispatch_revert_restores (body : CallBody) (j : Journal) :
    jrevert (execBody body (jcheckpoint j)) = j := by
  obtain ⟨l', hl⟩ := execBody_layers body j.base [] j.layers
  have hcp : jcheckpoint j = ⟨j.base, [] :: j.layers⟩ := rfl
  rw [hcp, hl]
  rfl

/-- C1: a nested call that ends in REVERT or exception leaves, after the
dispatcher returns, every account balance and every storage slot exactly as
it was before the call began — the rollback undoes all mutations, including
those of deeper checkpoints the body committed in the meantime — while for
REVERT the callee's return data is still handed to the caller. -/
theorem nested_call_rollback (body : CallBody) (outcome : CallOutcome) (ret : List Nat)
    (j : Journal) (hout : outcome ≠ .success) :
    (∀ addr, jread (dispatchNestedCall body outcome ret j).1 (.bal addr) =
      jread j (.bal addr)) ∧
    (∀ addr key, jread (dispatchNestedCall body outcome ret j).1 (.slot addr key) =
      jread j (.slot addr key)) ∧
    (outcome = .revert → (dispatchNestedCall body outcome ret j).2.returnData = ret) := by
  cases outcome with
  | success => exact absurd rfl hout
  | revert =>
    have hj : (dispatchNestedCall body .revert ret j).1 = j := dispatch_revert_restores body j
    exact ⟨fun addr => by rw [hj], fun addr key => by rw [hj], fun _ => rfl⟩
  | exception =>
    have hj : (dispatchNestedCall body .exception ret j).1 = j := dispatch_revert_restores body j
    exact ⟨fun addr => by rw [hj], fun addr key => by rw [hj], fun h => by cases h⟩

/-- Witness for C1: a call body that writes a balance and commits a nested
checkpoint writing a storage slot, then reverts: both reads come back as
before the call, and the REVERT return data reaches the caller. -/
theorem nested_call_rollback_witness :
    jread (dispatchNestedCall
        (.seq (.write (.bal 1) 5) (.nested (.write (.slot 1 2) 9) true)) .revert [0xaa]
        ⟨[(.bal 1, 100)], []⟩).1 (.bal 1) = jread ⟨[(.bal 1, 100)], []⟩ (.bal 1) ∧
    jread (dispatchNestedCall
        (.seq (.write (.bal 1) 5) (.nested (.write (.slot 1 2) 9) true)) .revert [0xaa]
        ⟨[(.bal 1, 100)], []⟩).1 (.slot 1 2) = jread ⟨[(.bal 1, 100)], []⟩ (.slot 1 2) ∧
    (dispatchNestedCall (.seq (.write (.bal 1) 5) (.nested (.write (.slot 1 2) 9) true))
        .revert [0xaa] ⟨[(.bal 1, 100)], []⟩).2.returnData = [0xaa] :=
  ⟨(nested_call_rollback _ .revert [0xaa] ⟨[(.bal 1, 100)], []⟩ (by decide)).1 1,
    (nested_call_rollback _ .revert [0xaa] ⟨[(.bal 1, 100)], []⟩ (by decide)).2.1 1 2,
    (nested_call_rollback _ .revert [0xaa] ⟨[(.bal 1, 100)], []⟩ (by decide)).2.2 rfl⟩

/-- C6: the CREATE address depends only on (sender address, sender nonce) —
two executions over different worlds and with different salts and
initialization codes derive the same address as long as the sender's nonce
agrees — and the CREATE2 address depends only on (sender address, salt,
hash of the initialization code), independent of the world state. -/
theorem create_address_deterministic (hash : List Nat → Nat) (w1 w2 : CreateWorld)
    (sender salt1 salt2 : Nat) (code1 code2 : List Nat) :
    (worldNonce w1 sender = worldNonce w2 sender →
      deriveCreateAddress hash .create w1 sender salt1 code1 =
        deriveCreateAddress hash .create w2 sender salt2 code2) ∧
    (hash code1 = hash code2 →
      deriveCreateAddress hash .create2 w1 sender salt1 code1 =
        deriveCreateAddress hash .create2 w2 sender salt1 code2) := by
  constructor
  · intro h
    simp only [deriveCreateAddress, createAddress, h]
  · intro h
    simp only [deriveCreateAddress, create2Address, h]

/-- Witness for C6 with a concrete digest function and two different worlds
agreeing on the sender's nonce. -/
theorem create_address_deterministic_witness :
    (worldNonce ⟨[(1, 5)]⟩ 1 = worldNonce ⟨[(2, 9), (1, 5)]⟩ 1 ∧
      deriveCreateAddress (fun l => l.foldl (fun a b => a * 31 + b) 7) .create ⟨[(1, 5)]⟩
          1 0 [] =
        deriveCreateAddress (fun l => l.foldl (fun a b => a * 31 + b) 7) .create
          ⟨[(2, 9), (1, 5)]⟩ 1 4 [1]) ∧
    deriveCreateAddress (fun l => l.foldl (fun a b => a * 31 + b) 7) .create2 ⟨[(1, 5)]⟩
        1 4 [2] =
      deriveCreateAddress (fun l => l.foldl (fun a b => a * 31 + b) 7) .create2
        ⟨[(2, 9), (1, 5)]⟩ 1 4 [2] :=
  ⟨⟨by decide,
    (create_address_deterministic (fun l => l.foldl (fun a b => a * 31 + b) 7) ⟨[(1, 5)]⟩
      ⟨[(2, 9), (1, 5)]⟩ 1 0 4 [] [1]).1 (by decide)⟩,
    (create_address_deterministic (fun l => l.foldl (fun a b => a * 31 + b) 7) ⟨[(1, 5)]⟩
      ⟨[(2, 9), (1, 5)]⟩ 1 4 4 [2] [2]).2 rfl⟩

/-- Two pools whose engine at index `i` agrees produce the same execution
result when running code on engine `i`. -/
theorem poolRun_fst_congr (p1 p2 : EnginePool) (i : Nat) (code : List Nat) (limit : Nat)
    (h : p1.engines[i]? = p2.engines[i]?) :
    (poolRun p1 i code limit).1 = (poolRun p2 i code limit).1 := by
  unfold poolRun
  rw [h]
  cases p2.engines[i]? <;> rfl

/-- C8: `copy()` yields an independent engine: running any bytecode on the
clone leaves the original engine's entry in the pool untouched, a
subsequent run on the original returns exactly what it would have returned
had the clone never run, and the clone shares the original's immutable
configuration. -/
theorem engine_copy_isolated (p : EnginePool) (i : Nat) (code code2 : List Nat)
    (limit limit2 : Nat) (hi : i < p.engines.length) :
    ((poolRun (poolCopy p i) p.engines.length code limit).2.engines[i]? = p.engines[i]?) ∧
    ((poolRun (poolRun (poolCopy p i) p.engines.length code limit).2 i code2 limit2).1 =
      (poolRun p i code2 limit2).1) ∧
    (((poolCopy p i).engines.getD p.engines.length default).config =
      (p.engines.getD i default).config) := by
  have hclone : (poolCopy p i).engines[p.engines.length]? =
      some (copyEngine (p.engines.getD i default)) :=
    List.getElem?_concat_length _ _
  have horig : ∀ k, k < p.engines.length → (poolCopy p i).engines[k]? = p.engines[k]? :=
    fun k hk => List.getElem?_append_left hk
  have hafter : (poolRun (poolCopy p i) p.engines.length code limit).2.engines[i]? =
      p.engines[i]? := by
    unfold poolRun
    rw [hclone]
    simp only
    rw [List.getElem?_set_ne (by omega)]
    exact horig i hi
  refine ⟨hafter, poolRun_fst_congr _ _ _ _ _ hafter, ?_⟩
  have : (poolCopy p i).engines.getD p.engines.length default =
      copyEngine (p.engines.getD i default) := by
    rw [List.getD_eq_getElem?_getD, hclone]
    rfl
  rw [this]
  rfl

/-- Witness for C8: a two-engine pool; cloning engine 0 and running a
storage write on the clone leaves engine 0 as it was, and a later run on
engine 0 matches the run without the clone. -/
theorem engine_copy_isolated_witness :
    0 < (EnginePool.mk [⟨7, []⟩, ⟨8, []⟩]).engines.length ∧
    ((poolRun (poolCopy ⟨[⟨7, []⟩, ⟨8, []⟩]⟩ 0) 2 [0x60, 0x05, 0x60, 0x02, 0x55] 1000).2.engines[0]? =
      (EnginePool.mk [⟨7, []⟩, ⟨8, []⟩]).engines[0]?) :=
  ⟨by norm_num,
    (engine_copy_isolated ⟨[⟨7, []⟩, ⟨8, []⟩]⟩ 0 [0x60, 0x05, 0x60, 0x02, 0x55] [] 1000 0
      (by norm_num)).1⟩

end EvmModel

namespace BlockModel

/-- Every successfully constructed block carries `opts.freeze ?? true` as
its frozen flag. -/
theorem mkBlock_frozen (header : MHeader) (txs : List MTx) (uncles : List MHeader)
    (wds : Option (List Nat)) (common : MCommon) (opts : MBlockOpts) (b : MBlock)
    (hmk : mkBlock header txs uncles wds common opts = .ok b) :
    b.frozen = opts.freeze.getD true := by
  unfold mkBlock at hmk
  by_cases h0 : 0 < uncles.length
  · rw [if_pos h0] at hmk
    cases hvu : validateUncles uncles with
    | some msg => simp only [hvu] at hmk; exact Except.noConfusion hmk
    | none =>
      simp only [hvu] at hmk
      split_ifs at hmk
      all_goals first
        | exact Except.noConfusion hmk
        | (cases hmk; rfl)
  · rw [if_neg h0] at hmk
    split_ifs at hmk
    all_goals first
      | exact Except.noConfusion hmk
      | (cases hmk; rfl)

/-- C9: a `Block` constructed without explicitly passing `freeze: false` is
frozen at the end of its constructor; reassigning any of its `header`,
`transactions`, `uncleHeaders` or `withdrawals` fields then throws, and
every observable block operation (raw, hash, serialize, toJSON, the
validation methods — including the trie regeneration helpers, which only
touch the helper trie) returns the block with those four fields exactly as
they were. -/
theorem block_freeze_immutable (header : MHeader) (txs : List MTx) (uncles : List MHeader)
    (wds : Option (List Nat)) (common : MCommon) (opts : MBlockOpts) (b : MBlock)
    (hfr : opts.freeze ≠ some false)
    (hmk : mkBlock header txs uncles wds common opts = .ok b) :
    b.frozen = true ∧
    (∀ v, assignField b v = .error "Cannot assign to read only property of frozen object") ∧
    (∀ op, (runBlockOp b op).header = b.header ∧
      (runBlockOp b op).transactions = b.transactions ∧
      (runBlockOp b op).uncleHeaders = b.uncleHeaders ∧
      (runBlockOp b op).withdrawals = b.withdrawals) := by
  have hfz : b.frozen = true := by
    rw [mkBlock_frozen header txs uncles wds common opts b hmk]
    rcases hopt : opts.freeze with _ | bv
    · rfl
    · cases bv
      · exact absurd hopt hfr
      · rfl
  refine ⟨hfz, ?_, ?_⟩
  · intro v
    unfold assignField
    rw [hfz]
    rfl
  · intro op
    cases op <;> refine ⟨?_, ?_, ?_, ?_⟩ <;> simp only [runBlockOp] <;> (try split) <;> rfl

/-- Witness for C9: a concrete block built with default options (`freeze`
not given) is frozen, rejects a header reassignment, and `genTxTrie` leaves
its four fields intact. -/
theorem block_freeze_immutable_witness :
    (MBlockOpts.mk none).freeze ≠ some false ∧
    (∃ b : MBlock,
      mkBlock ⟨0, none, none, 0, 0⟩ [.other] [] none
        ⟨false, false, false, false, false, 0, 0⟩ ⟨none⟩ = .ok b ∧
      b.frozen = true ∧
      assignField b (.header ⟨1, none, none, 0, 0⟩) =
        .error "Cannot assign to read only property of frozen object" ∧
      (runBlockOp b .genTxTrie).header = b.header) := by
  refine ⟨by decide, ⟨⟨⟨0, none, none, 0, 0⟩, [.other], [], none, [],
    ⟨false, false, false, false, false, 0, 0⟩, true⟩, rfl, ?_⟩⟩
  have h := block_freeze_immutable ⟨0, none, none, 0, 0⟩ [.other] [] none
    ⟨false, false, false, false, false, 0, 0⟩ ⟨none⟩
    ⟨⟨0, none, none, 0, 0⟩, [.other], [], none, [],
      ⟨false, false, false, false, false, 0, 0⟩, true⟩ (by decide) rfl
  exact ⟨h.1, h.2.1 (.header ⟨1, none, none, 0, 0⟩), (h.2.2 .genTxTrie).1⟩

/-- A successful transaction walk returns the accumulated blob gas. -/
theorem checkBlobTxs_ok (price per lim : Nat) :
    ∀ (txs : List MTx) (acc v : Nat),
      checkBlobTxs price per lim txs acc = .ok v → v = acc + totalBlobGas per txs := by
  intro txs
  induction txs with
  | nil =>
    intro acc v h
    simp only [checkBlobTxs] at h
    cases h
    simp [totalBlobGas]
  | cons tx rest ih =>
    intro acc v h
    cases tx with
    | other =>
      simp only [checkBlobTxs] at h
      have := ih acc v h
      simp [totalBlobGas, this]
    | blob fee n =>
      simp only [checkBlobTxs] at h
      by_cases h1 : fee < price
      · rw [if_pos h1] at h; exact Except.noConfusion h
      · rw [if_neg h1] at h
        by_cases h2 : lim < acc + n * per
        · rw [if_pos h2] at h; exact Except.noConfusion h
        · rw [if_neg h2] at h
          have := ih (acc + n * per) v h
          simp only [totalBlobGas, this]
          omega

/-- While the running accumulator respects the bound, the transaction walk
fails exactly when some blob transaction is underpriced or the cumulative
blob gas overflows the per-block maximum. -/
theorem checkBlobTxs_error_iff (price per lim : Nat) :
    ∀ (txs : List MTx) (acc : Nat), acc ≤ lim →
      ((∃ msg, checkBlobTxs price per lim txs acc = .error msg) ↔
        (hasUnderpricedBlobTx price txs ∨ lim < acc + totalBlobGas per txs)) := by
  intro txs
  induction txs with
  | nil =>
    intro acc hacc
    constructor
    · rintro ⟨msg, h⟩
      exact Except.noConfusion h
    · rintro (h | h)
      · simp [hasUnderpricedBlobTx] at h
      · simp only [totalBlobGas] at h
        omega
  | cons tx rest ih =>
    intro acc hacc
    cases tx with
    | other =>
      simp only [checkBlobTxs, hasUnderpricedBlobTx, totalBlobGas]
      exact ih acc hacc
    | blob fee n =>
      by_cases h1 : fee < price
      · constructor
        · intro _
          exact Or.inl (by unfold hasUnderpricedBlobTx; exact Or.inl h1)
        · intro _
          exact ⟨"blob transaction maxFeePerBlobGas < than block blob gas price",
            by simp only [checkBlobTxs]; rw [if_pos h1]⟩
      · by_cases h2 : lim < acc + n * per
        · constructor
          · intro _
            right
            unfold totalBlobGas
            omega
          · intro _
            refine ⟨"tx causes total blob gas to exceed maximum blob gas per block", ?_⟩
            simp only [checkBlobTxs]
            rw [if_neg h1]
            simp only [if_pos h2]
        · have hstep : checkBlobTxs price per lim (.blob fee n :: rest) acc =
              checkBlobTxs price per lim rest (acc + n * per) := by
            simp only [checkBlobTxs]
            rw [if_neg h1]
            simp only [if_neg h2]
          rw [hstep]
          have hiff := ih (acc + n * per) (by omega)
          constructor
          · intro hmem
            rcases hiff.mp hmem with h' | h'
            · exact Or.inl (by unfold hasUnderpricedBlobTx; exact Or.inr h')
            · right
              unfold totalBlobGas
              omega
          · rintro (h | h)
            · unfold hasUnderpricedBlobTx at h
              rcases h with h | h
              · exact absurd h h1
              · exact hiff.mpr (Or.inl h)
            · unfold totalBlobGas at h
              exact hiff.mpr (Or.inr (by omega))

/-- C10: `validateBlobTransactions(parentHeader)` throws exactly when
EIP-4844 is active and one of the four conditions holds — excess-blob-gas
mismatch with the parent-derived value, an underpriced blob transaction,
cumulative blob gas above the per-block maximum, or a `blobGasUsed` header
mismatch; when EIP-4844 is inactive it returns without throwing; and the
call leaves the block itself unmodified. -/
theorem validate_blob_txs_throws_iff (b : MBlock) (parentHeader : MHeader) :
    ((∃ msg, validateBlobTransactions b parentHeader = .error msg) ↔
      (b.common.eip4844 = true ∧
        (b.header.excessBlobGas ≠ some parentHeader.calcNextExcessBlobGas ∨
          hasUnderpricedBlobTx b.header.getBlobGasPrice b.transactions ∨
          b.common.maxblobGasPerBlock <
            totalBlobGas b.common.blobGasPerBlob b.transactions ∨
          b.header.blobGasUsed ≠
            some (totalBlobGas b.common.blobGasPerBlob b.transactions)))) ∧
    (b.common.eip4844 = false → validateBlobTransactions b parentHeader = .ok ()) ∧
    (∀ parent2, runBlockOp b (.validateBlobTransactions parent2) = b) := by
  refine ⟨?_, fun h => by simp [validateBlobTransactions, h], fun _ => rfl⟩
  · unfold validateBlobTransactions
    cases heip : b.common.eip4844 with
    | false =>
      simp only [Bool.false_eq_true, if_false]
      constructor
      · rintro ⟨msg, h⟩; exact Except.noConfusion h
      · rintro ⟨h, _⟩; exact h.elim
    | true =>
      simp only [if_true]
      by_cases hex : b.header.excessBlobGas ≠ some parentHeader.calcNextExcessBlobGas
      · rw [if_pos hex]
        exact ⟨fun _ => ⟨by trivial, Or.inl hex⟩,
          fun _ => ⟨"block excessBlobGas mismatch", rfl⟩⟩
      · rw [if_neg hex]
        cases hchk : checkBlobTxs b.header.getBlobGasPrice b.common.blobGasPerBlob
            b.common.maxblobGasPerBlock b.transactions 0 with
        | error msg =>
          constructor
          · intro _
            rcases (checkBlobTxs_error_iff _ _ _ b.transactions 0 (Nat.zero_le _)).mp
                ⟨msg, hchk⟩ with h | h
            · exact ⟨by trivial, Or.inr (Or.inl h)⟩
            · exact ⟨by trivial, Or.inr (Or.inr (Or.inl (by omega)))⟩
          · intro _
            exact ⟨msg, rfl⟩
        | ok v =>
          dsimp only
          have hv : v = totalBlobGas b.common.blobGasPerBlob b.transactions := by
            have := checkBlobTxs_ok _ _ _ b.transactions 0 v hchk
            omega
          have hnoerr : ¬ (hasUnderpricedBlobTx b.header.getBlobGasPrice b.transactions ∨
              b.common.maxblobGasPerBlock <
                totalBlobGas b.common.blobGasPerBlob b.transactions) := by
            intro hcontra
            have hor : hasUnderpricedBlobTx b.header.getBlobGasPrice b.transactions ∨
                b.common.maxblobGasPerBlock < 0 +
                  totalBlobGas b.common.blobGasPerBlob b.transactions := by
              rcases hcontra with h | h
              · exact Or.inl h
              · exact Or.inr (by omega)
            obtain ⟨msg, hmsg⟩ := (checkBlobTxs_error_iff _ _ _ b.transactions 0
              (Nat.zero_le _)).mpr hor
            rw [hchk] at hmsg
            exact Except.noConfusion hmsg
          by_cases hbu : b.header.blobGasUsed ≠ some v
          · rw [if_pos hbu]
            exact ⟨fun _ => ⟨by trivial, Or.inr (Or.inr (Or.inr (hv ▸ hbu)))⟩,
              fun _ => ⟨"block blobGasUsed mismatch", rfl⟩⟩
          · rw [if_neg hbu]
            constructor
            · rintro ⟨msg, h⟩
              exact Except.noConfusion h
            · rintro ⟨_, h | h | h | h⟩
              · exact absurd h hex
              · exact absurd (Or.inl h) hnoerr
              · exact absurd (Or.inr h) hnoerr
              · exact absurd (hv ▸ h) hbu

/-- Witness for C10: a concrete EIP-4844 block whose `excessBlobGas` does
not match the parent-derived value throws, and a non-4844 block passes. -/
theorem validate_blob_txs_throws_iff_witness :
    ((∃ msg, validateBlobTransactions
        ⟨⟨0, some 3, some 0, 0, 1⟩, [], [], none, [],
          ⟨false, true, false, false, false, 100, 10⟩, true⟩
        ⟨0, none, none, 7, 1⟩ = .error msg)) ∧
    validateBlobTransactions
        ⟨⟨0, some 3, some 0, 0, 1⟩, [], [], none, [],
          ⟨false, false, false, false, false, 100, 10⟩, true⟩
        ⟨0, none, none, 7, 1⟩ = .ok () := by
  constructor
  · exact (validate_blob_txs_throws_iff
      ⟨⟨0, some 3, some 0, 0, 1⟩, [], [], none, [],
        ⟨false, true, false, false, false, 100, 10⟩, true⟩
      ⟨0, none, none, 7, 1⟩).1.mpr ⟨rfl, Or.inl (by decide)⟩
  · exact (validate_blob_txs_throws_iff
      ⟨⟨0, some 3, some 0, 0, 1⟩, [], [], none, [],
        ⟨false, false, false, false, false, 100, 10⟩, true⟩
      ⟨0, none, none, 7, 1⟩).2.1 rfl

end BlockModel

namespace EvmModel

set_option maxRecDepth 10000 in
/-- C7: the BLS12-G1-MSM built-in is active at address `0x0d` exactly when
EIP-2537 is, its invocation is the function `BLS12G1MSM` of (input,
gasLimit) alone; every documented test vector of the repository's
`0d-bls12-g1msm` suite yields exactly the expected output bytes with the
expected gas; the gas charged grows with the number of (point, scalar)
pairs — 14400 for one pair, 21312 for two, 42000 for the seven-pair
vector — and malformed input or insufficient gas yields `Failure` without
partial output. -/
theorem bls12_g1msm_vectors :
    (getActivePrecompile true 0x0d).isSome = true ∧
    (getActivePrecompile false 0x0d).isNone = true ∧
    BLS12G1MSM c7in1 5000000 = .ok ⟨c7out1, 14400⟩ ∧
    BLS12G1MSM c7in2 5000000 = .ok ⟨c7out2, 14400⟩ ∧
    BLS12G1MSM c7in3 5000000 = .ok ⟨c7out3, 14400⟩ ∧
    BLS12G1MSM c7in4 5000000 = .ok ⟨c7out4, 14400⟩ ∧
    BLS12G1MSM c7in5 5000000 = .ok ⟨c7out5, 14400⟩ ∧
    BLS12G1MSM c7in6 5000000 = .ok ⟨c7out6, 14400⟩ ∧
    BLS12G1MSM c7in7 5000000 = .ok ⟨c7out7, 14400⟩ ∧
    BLS12G1MSM c7in8 5000000 = .ok ⟨c7out8, 21312⟩ ∧
    BLS12G1MSM c7in9 5000000 = .ok ⟨c7out9, 21312⟩ ∧
    BLS12G1MSM c7in10 5000000 = .ok ⟨c7out10, 21312⟩ ∧
    BLS12G1MSM c7in11 5000000 = .ok ⟨c7out11, 42000⟩ ∧
    g1MsmGas 1 = 14400 ∧ g1MsmGas 2 = 21312 ∧ g1MsmGas 7 = 42000 ∧
    g1MsmGas 1 < g1MsmGas 2 ∧ g1MsmGas 2 < g1MsmGas 7 ∧
    BLS12G1MSM c7in1 100 = .fail ∧
    BLS12G1MSM [1] 5000000 = .fail := by
  refine ⟨rfl, rfl, ?_, ?_, ?_, ?_, ?_, ?_, ?_, ?_, ?_, ?_, ?_,
    by norm_num [g1MsmGas, g1MsmDiscount], by norm_num [g1MsmGas, g1MsmDiscount],
    by norm_num [g1MsmGas, g1MsmDiscount], by norm_num [g1MsmGas, g1MsmDiscount],
    by norm_num [g1MsmGas, g1MsmDiscount], by decide, by decide⟩ <;> decide

end EvmModel
